import Mathlib

/-!
Verification development for the event-scheduling server.

The definitions below are a shallow embedding of the Python sources under
`src/server`: `models.py` (Event / Participant records and their dict
conversions), `database_service.py` (the relational store backend),
`event_store.py` (the volatile in-memory backend), and `event_service.py`
(the SOAP envelope codec, the SOAP dispatcher and the JSON/HTTP endpoints).

Modelling conventions:
* Python dicts that carry event payloads become the `Payload` structure.
  A field of type `Option (Option String)` distinguishes a key that is
  absent (`none`) from a key present with value `None` (`some none`) and a
  key present with a string (`some (some s)`).
* Exceptions become `Except String`; on error the caller keeps the
  pre-call store state, which models the `db.session.rollback()` calls.
* `datetime.utcnow()` becomes an explicit `now : Nat` parameter, and
  `uuid.uuid4()` an explicit `newId : String` parameter.
* XML documents become the `XElem` tree; `ElementTree.find('.//tag')`
  becomes a preorder search of proper descendants.
-/

namespace EventScheduling

/-! ## Dates and times (`datetime.strptime` with formats %Y-%m-%d, %H:%M:%S) -/

structure CalDate where
  year : Nat
  month : Nat
  day : Nat
deriving Repr, DecidableEq

structure TimeOfDay where
  hour : Nat
  minute : Nat
  second : Nat
deriving Repr, DecidableEq

def isLeapYear (y : Nat) : Bool :=
  y % 4 = 0 && (y % 100 ≠ 0 || y % 400 = 0)

def daysInMonth (y m : Nat) : Nat :=
  if m = 2 then (if isLeapYear y then 29 else 28)
  else if m = 4 || m = 6 || m = 9 || m = 11 then 30
  else 31

/-- The value of an ASCII digit character. -/
def chVal (c : Char) : Nat := c.toNat - 48

/-- The character class `[1-9]` of the `_strptime` regexes. -/
def digit19 (c : Char) : Bool := c.isDigit && c != '0'

/-- The character class `[0-k]` for a digit bound `k`. -/
def isUpTo (c bound : Char) : Bool := c.isDigit && c.toNat ≤ bound.toNat

/-- The `ValueError` text `time data %r does not match format %r` raised
by `_strptime` when the compiled format regex does not match; for the
plain strings the payloads carry, `%r` prints the value between single
quotes. -/
def dateFormatErr (s : String) : String :=
  "time data \x27" ++ s ++ "\x27 does not match format \x27%Y-%m-%d\x27"

def timeFormatErr (s : String) : String :=
  "time data \x27" ++ s ++ "\x27 does not match format \x27%H:%M:%S\x27"

/-- One two-character alternative of a `_strptime` component regex: the
candidate value and the remaining input, if the two leading characters
match the classes. -/
def alt2 (p1 p2 : Char → Bool) (v : Char → Char → Nat) :
    List Char → List (Nat × List Char)
  | c1 :: c2 :: r => if p1 c1 && p2 c2 then [(v c1 c2, r)] else []
  | _ => []

/-- One single-character alternative. -/
def alt1 (p : Char → Bool) (v : Char → Nat) :
    List Char → List (Nat × List Char)
  | c :: r => if p c then [(v c, r)] else []
  | _ => []

/-- `%Y` compiles to `\d\d\d\d`: exactly four digits. -/
def matchYear : List Char → Option (Nat × List Char)
  | a :: b :: c :: d :: rest =>
    if a.isDigit && b.isDigit && c.isDigit && d.isDigit then
      some (((chVal a * 10 + chVal b) * 10 + chVal c) * 10 + chVal d, rest)
    else none
  | _ => none

/-- `%m` compiles to `1[0-2]|0[1-9]|[1-9]`; the candidates are listed in
alternation order. -/
def monthCands (l : List Char) : List (Nat × List Char) :=
  alt2 (fun c => c == '1') (fun c => isUpTo c '2') (fun _ c2 => 10 + chVal c2) l ++
  alt2 (fun c => c == '0') digit19 (fun _ c2 => chVal c2) l ++
  alt1 digit19 chVal l

/-- `%d` compiles to `3[01]|[12]\d|0[1-9]|[1-9]| [1-9]` — note the last
alternative, a space-padded single digit. -/
def dayCands (l : List Char) : List (Nat × List Char) :=
  alt2 (fun c => c == '3') (fun c => isUpTo c '1') (fun _ c2 => 30 + chVal c2) l ++
  alt2 (fun c => c == '1' || c == '2') Char.isDigit
    (fun c1 c2 => chVal c1 * 10 + chVal c2) l ++
  alt2 (fun c => c == '0') digit19 (fun _ c2 => chVal c2) l ++
  alt1 digit19 chVal l ++
  alt2 (fun c => c == ' ') digit19 (fun _ c2 => chVal c2) l

/-- `%H` compiles to `2[0-3]|[0-1]\d|\d`. -/
def hourCands (l : List Char) : List (Nat × List Char) :=
  alt2 (fun c => c == '2') (fun c => isUpTo c '3') (fun _ c2 => 20 + chVal c2) l ++
  alt2 (fun c => isUpTo c '1') Char.isDigit
    (fun c1 c2 => chVal c1 * 10 + chVal c2) l ++
  alt1 Char.isDigit chVal l

/-- `%M` compiles to `[0-5]\d|\d`. -/
def minuteCands (l : List Char) : List (Nat × List Char) :=
  alt2 (fun c => isUpTo c '5') Char.isDigit
    (fun c1 c2 => chVal c1 * 10 + chVal c2) l ++
  alt1 Char.isDigit chVal l

/-- `%S` compiles to `6[0-1]|[0-5]\d|\d`: 60 and 61 pass the regex and
are only rejected later by the `datetime` constructor. -/
def secondCands (l : List Char) : List (Nat × List Char) :=
  alt2 (fun c => c == '6') (fun c => isUpTo c '1') (fun _ c2 => 60 + chVal c2) l ++
  alt2 (fun c => isUpTo c '5') Char.isDigit
    (fun c1 c2 => chVal c1 * 10 + chVal c2) l ++
  alt1 Char.isDigit chVal l

/-- The literal `-` separator followed by `%d`.  The day is the final
component of the pattern, so the first alternative that matches wins and
whatever follows it is leftover input. -/
def dashDay : List Char → Option (Nat × List Char)
  | '-' :: r => (dayCands r).head?
  | _ => none

/-- The `%m` candidates tried in alternation order against the
continuation `-%d`: a dead end backtracks to the next candidate. -/
def matchMD : List (Nat × List Char) → Option (Nat × Nat × List Char)
  | [] => none
  | (m, r) :: more =>
    match dashDay r with
    | some (d, rest) => some (m, d, rest)
    | none => matchMD more

/-- The literal `:` separator followed by the final component `%S`. -/
def colonSecond : List Char → Option (Nat × List Char)
  | ':' :: r => (secondCands r).head?
  | _ => none

/-- The `%M` candidates tried against the continuation `:%S`. -/
def matchMS : List (Nat × List Char) → Option (Nat × Nat × List Char)
  | [] => none
  | (m, r) :: more =>
    match colonSecond r with
    | some (sec, rest) => some (m, sec, rest)
    | none => matchMS more

/-- The `%H` candidates tried against the continuation `:%M:%S`. -/
def matchHMS : List (Nat × List Char) → Option (Nat × Nat × Nat × List Char)
  | [] => none
  | (h, r) :: more =>
    match r with
    | ':' :: r2 =>
      match matchMS (minuteCands r2) with
      | some (m, sec, rest) => some (h, m, sec, rest)
      | none => matchHMS more
    | _ => matchHMS more

/-- `datetime.strptime(s, '%Y-%m-%d').date()` as CPython `_strptime`
performs it: the compiled regex (four year digits, a dash, the `%m`
alternation, a dash, the `%d` alternation) must match a prefix of the
input.  No match raises the `time data ...` ValueError; a matched prefix
with input left over raises `unconverted data remains`; matched values
the `datetime` constructor rejects raise that constructor range message
(`%Y` only admits year 0 as out of range, `%m` is always in 1..12, `%d`
is in 1..31 so only the month length can be exceeded).  Digits are
modelled as ASCII digits. -/
def strptimeDate (s : String) : Except String CalDate :=
  match matchYear s.data with
  | none => .error (dateFormatErr s)
  | some (y, r1) =>
    match r1 with
    | '-' :: r2 =>
      match matchMD (monthCands r2) with
      | none => .error (dateFormatErr s)
      | some (m, d, leftover) =>
        if leftover.isEmpty then
          if y = 0 then .error "year 0 is out of range"
          else if daysInMonth y m < d then .error "day is out of range for month"
          else .ok ⟨y, m, d⟩
        else .error ("unconverted data remains: " ++ String.mk leftover)
    | _ => .error (dateFormatErr s)

/-- `datetime.strptime(s, '%H:%M:%S').time()`: the `%H`, `%M` and `%S`
alternations separated by literal colons.  The regex keeps hours in 0..23
and minutes in 0..59, but admits 60 and 61 seconds, which the `datetime`
constructor then rejects with its own message. -/
def strptimeTime (s : String) : Except String TimeOfDay :=
  match matchHMS (hourCands s.data) with
  | none => .error (timeFormatErr s)
  | some (h, m, sec, leftover) =>
    if leftover.isEmpty then
      if 60 ≤ sec then .error "second must be in 0..59"
      else .ok ⟨h, m, sec⟩
    else .error ("unconverted data remains: " ++ String.mk leftover)

def padTwo (n : Nat) : String :=
  if n < 10 then "0" ++ toString n else toString n

def padFour (n : Nat) : String :=
  if n < 10 then "000" ++ toString n
  else if n < 100 then "00" ++ toString n
  else if n < 1000 then "0" ++ toString n
  else toString n

/-- `date.isoformat()`. -/
def formatDate (d : CalDate) : String :=
  padFour d.year ++ "-" ++ padTwo d.month ++ "-" ++ padTwo d.day

/-- `time.strftime('%H:%M:%S')`. -/
def formatTime (t : TimeOfDay) : String :=
  padTwo t.hour ++ ":" ++ padTwo t.minute ++ ":" ++ padTwo t.second

/-- Rendering of a model timestamp, standing for `datetime.isoformat()`.
The claims never inspect the text of a timestamp, only whether it changed,
so the clock is an abstract `Nat` tick. -/
def tsRender (n : Nat) : String := "ts:" ++ toString n

/-! ## Event payload dictionaries

A `Payload` models a Python dict with the event field names as keys, as
produced by `parse_event_from_xml` or `request.get_json()` and consumed by
`Event.from_dict` / `Event.update_from_dict` / the two store backends.
Outer `Option` = key presence, inner `Option` = value `None` vs a string. -/

structure Payload where
  id : Option (Option String) := none
  title : Option (Option String) := none
  agenda : Option (Option String) := none
  date : Option (Option String) := none
  time : Option (Option String) := none
  importance : Option (Option String) := none
  location : Option (Option String) := none
  coordinator : Option (Option String) := none
  recurrence : Option (Option String) := none
  participants : Option (List String) := none
  created_at : Option (Option String) := none
  updated_at : Option (Option String) := none
deriving Repr, DecidableEq

/-- `bool(event_data)` for a dict: a dict with no keys at all is falsy. -/
def Payload.isEmptyDict (d : Payload) : Bool :=
  d.id = none && d.title = none && d.agenda = none && d.date = none &&
  d.time = none && d.importance = none && d.location = none &&
  d.coordinator = none && d.recurrence = none && d.participants = none &&
  d.created_at = none && d.updated_at = none

/-! ## XML trees (`xml.etree.ElementTree`)

Attributes carry no information used by the codec, so an element is a tag
(with the `\x7bnamespace\x7d` prefix notation ElementTree uses), an
optional text and a forest of children.  The children form their own
mutually inductive type so that the tree-walking functions below are
structurally recursive. -/

mutual
inductive XElem where
  | mk (tag : String) (text : Option String) (children : XForest)
inductive XForest where
  | nil : XForest
  | cons (head : XElem) (tail : XForest) : XForest
end

def XElem.tag : XElem → String
  | .mk t _ _ => t

def XElem.text : XElem → Option String
  | .mk _ x _ => x

def XElem.children : XElem → XForest
  | .mk _ _ cs => cs

def XForest.ofList : List XElem → XForest
  | [] => .nil
  | x :: xs => .cons x (XForest.ofList xs)

def XForest.toList : XForest → List XElem
  | .nil => []
  | .cons x xs => x :: XForest.toList xs

def XForest.isEmpty : XForest → Bool
  | .nil => true
  | .cons _ _ => false

def XForest.foldl (f : α → XElem → α) : α → XForest → α
  | a, .nil => a
  | a, .cons x xs => XForest.foldl f (f a x) xs

/-- `element.find('.//tag')` over a forest: first element with the given
tag in document (preorder) order. -/
def findForest : XForest → String → Option XElem
  | .nil, _ => none
  | .cons (XElem.mk t x cs) rest, target =>
    if t = target then some (XElem.mk t x cs)
    else
      match findForest cs target with
      | some r => some r
      | none => findForest rest target

/-- `element.find('.//tag')`: proper descendants only. -/
def findDesc (e : XElem) (target : String) : Option XElem :=
  findForest e.children target

/-- `element.findall('.//tag')` over a forest: all matches in document
order (a matching element's own matching descendants included). -/
def findAllForest : XForest → String → List XElem
  | .nil, _ => []
  | .cons (XElem.mk t x cs) rest, target =>
    (if t = target then [XElem.mk t x cs] else []) ++
      findAllForest cs target ++ findAllForest rest target

def findAllDesc (e : XElem) (target : String) : List XElem :=
  findAllForest e.children target

/-- `bool(element)`: ElementTree elements are truthy iff they have
subelements. -/
def XElem.truthy (e : XElem) : Bool :=
  !e.children.isEmpty

def soapNS : String := "\x7bhttp://schemas.xmlsoap.org/soap/envelope/\x7d"
def wsdlNS : String := "\x7bhttp://eventscheduling.com/wsdl\x7d"
def schNS : String := "\x7bhttp://eventscheduling.com/schemas\x7d"

/-! ## Envelope codec (`event_service.py`) -/

def eventFieldNames : List String :=
  ["id", "title", "agenda", "date", "time", "importance", "location",
   "coordinator", "recurrence"]

/-- `parse_event_from_xml(element)`.  Locates the `eventData` or `event`
element (`find(A) or find(B)` with ElementTree truthiness: an element with
no subelements is falsy), falling back to `element` itself; then extracts
each scalar field's text and the participant names, dropping names whose
text is missing or the empty string (`if participant.text:`). -/
def parse_event_from_xml (element : XElem) : Payload :=
  let found :=
    match findDesc element (schNS ++ "eventData") with
    | some x => if x.truthy then some x else findDesc element (schNS ++ "event")
    | none => findDesc element (schNS ++ "event")
  let ee := found.getD element
  let fld := fun (name : String) => (findDesc ee (schNS ++ name)).map XElem.text
  { id := fld "id", title := fld "title", agenda := fld "agenda",
    date := fld "date", time := fld "time", importance := fld "importance",
    location := fld "location", coordinator := fld "coordinator",
    recurrence := fld "recurrence",
    participants :=
      match findDesc ee (schNS ++ "participants") with
      | none => none
      | some pe => some ((findAllDesc pe (schNS ++ "participant")).filterMap
          (fun p => match p.text with
            | some s => if s ≠ "" then some s else none
            | none => none)) }

/-- The `(operation, event_data, event_id)` triple `parse_soap_request`
returns. -/
structure ParsedReq where
  operation : Option String := none
  event_data : Option Payload := none
  event_id : Option String := none
deriving Repr, DecidableEq

/-- Python `s.endswith(t)`: an exact suffix test. -/
def strEndsWith (s t : String) : Bool :=
  t.data.isSuffixOf s.data

/-- One iteration of the `for child in body` loop in `parse_soap_request`.
Matching is by tag suffix (`child.tag.endswith(...)`); a recognized child
overwrites the accumulator, an unrecognized one leaves it unchanged. -/
def soapReqStep (acc : ParsedReq) (child : XElem) : ParsedReq :=
  if strEndsWith child.tag "AddEvent" then
    { acc with operation := some "AddEvent",
               event_data := some (parse_event_from_xml child) }
  else if strEndsWith child.tag "GetEvent" then
    { acc with operation := some "GetEvent",
               event_id := (findDesc child (schNS ++ "eventId")).bind XElem.text }
  else if strEndsWith child.tag "GetAllEvents" then
    { acc with operation := some "GetAllEvents" }
  else if strEndsWith child.tag "UpdateEvent" then
    { acc with operation := some "UpdateEvent",
               event_data := some (parse_event_from_xml child) }
  else if strEndsWith child.tag "DeleteEvent" then
    { acc with operation := some "DeleteEvent",
               event_id := (findDesc child (schNS ++ "eventId")).bind XElem.text }
  else acc

/-- `parse_soap_request(xml_data)` on an already-parsed tree.  The only
failure modelled is the `ValueError("SOAP Body not found")` raised when no
Body element exists; XML-level parse errors happen before the tree exists
and are outside this embedding. -/
def parse_soap_request (root : XElem) : Except String ParsedReq :=
  match findDesc root (soapNS ++ "Body") with
  | none => .error "SOAP Body not found"
  | some body => .ok (XForest.foldl soapReqStep {} body.children)

/-- The dictionary `Event.to_dict` produces (`models.py`): every key is
present; nullable columns may carry `None`. -/
structure EventView where
  id : Option String := none
  title : Option String := none
  agenda : Option String := none
  date : Option String := none
  time : Option String := none
  importance : Option String := none
  location : Option String := none
  coordinator : Option String := none
  recurrence : Option String := none
  participants : List String := []
  created_at : Option String := none
  updated_at : Option String := none
deriving Repr, DecidableEq

/-- One scalar field's subelement: present and non-`None` values only
(`if field in event_data and event_data[field] is not None`). -/
def scalarChild (name : String) (v : Option String) : List XElem :=
  match v with
  | some s => [XElem.mk (schNS ++ name) (some s) .nil]
  | none => []

/-- One `participant` element per name. -/
def participantElems (texts : List (Option String)) : List XElem :=
  texts.map (fun x => XElem.mk (schNS ++ "participant") x .nil)

/-- The `participants` element, emitted only when the list is non-empty
(`if 'participants' in event_data and event_data['participants']:`). -/
def participantsChild (ps : List String) : List XElem :=
  if ps.isEmpty then []
  else [XElem.mk (schNS ++ "participants") none (XForest.ofList
    (participantElems (ps.map some)))]

/-- The children of an encoded event element, in the source's fixed field
order (the timestamps are not part of the field list and are never
emitted). -/
def encFields (ev : EventView) : List XElem :=
  scalarChild "id" ev.id ++ scalarChild "title" ev.title ++
  scalarChild "agenda" ev.agenda ++ scalarChild "date" ev.date ++
  scalarChild "time" ev.time ++ scalarChild "importance" ev.importance ++
  scalarChild "location" ev.location ++ scalarChild "coordinator" ev.coordinator ++
  scalarChild "recurrence" ev.recurrence ++ participantsChild ev.participants

def create_event_xml (ev : EventView) : XElem :=
  XElem.mk (schNS ++ "event") none (XForest.ofList (encFields ev))

/-- The `data` argument of `create_soap_response`: `None`, an identifier
string, one event dict, or a list of event dicts. -/
inductive SoapData where
  | noData
  | str (s : String)
  | ev (e : EventView)
  | evs (l : List EventView)

/-- Python truthiness of the `data` argument (`'...' and data`); a dict
from `to_dict` always has keys and is truthy. -/
def SoapData.truthy : SoapData → Bool
  | .noData => false
  | .str s => s ≠ ""
  | .ev _ => true
  | .evs l => !l.isEmpty

/-- Truthiness of the `error` argument (`if error:`). -/
def errTruthy : Option String → Bool
  | some e => e ≠ ""
  | none => false

/-- `create_soap_response(operation, data, success, error)`.  A truthy
error yields a Fault body (faultcode `Server`, faultstring the message)
instead of the `<operation>Response` element; Update/Delete responses wrap
`'true' if success else 'false'` in a `return` element. -/
def create_soap_response (operation : String) (data : SoapData)
    (success : Bool) (error : Option String) : XElem :=
  let bodyChildren :=
    if errTruthy error then
      [XElem.mk (soapNS ++ "Fault") none (XForest.ofList
        [XElem.mk "faultcode" (some "Server") .nil,
         XElem.mk "faultstring" error .nil])]
    else
      let respChildren :=
        if operation = "AddEvent" && data.truthy then
          match data with
          | .str s => [XElem.mk (wsdlNS ++ "return") (some s) .nil]
          | _ => []
        else if operation = "GetEvent" && data.truthy then
          match data with
          | .ev e => [create_event_xml e]
          | _ => []
        else if operation = "GetAllEvents" && data.truthy then
          match data with
          | .evs l => l.map create_event_xml
          | _ => []
        else if operation = "UpdateEvent" || operation = "DeleteEvent" then
          [XElem.mk (wsdlNS ++ "return")
            (some (if success then "true" else "false")) .nil]
        else []
      [XElem.mk (wsdlNS ++ operation ++ "Response") none (XForest.ofList respChildren)]
  XElem.mk (soapNS ++ "Envelope") none (XForest.ofList
    [XElem.mk (soapNS ++ "Body") none (XForest.ofList bodyChildren)])

/-- Extracts the faultstring text of a response envelope, if any. -/
def faultStringOf (resp : XElem) : Option String :=
  match findDesc resp (soapNS ++ "Fault") with
  | some f => (findDesc f "faultstring").bind XElem.text
  | none => none

/-- Whether a response envelope carries a Fault element. -/
def isFaultResp (resp : XElem) : Bool :=
  (findDesc resp (soapNS ++ "Fault")).isSome

/-- Extracts the text of the `return` element of a response envelope. -/
def returnTextOf (resp : XElem) : Option String :=
  (findDesc resp (wsdlNS ++ "return")).bind XElem.text

/-! ## Relational store backend (`models.py` + `database_service.py`)

The two SQLite tables become two lists.  `db.session.rollback()` on an
exception means every `.error` outcome leaves the caller's store state
untouched.  Timestamps are abstract clock ticks (`now : Nat`); generated
identifiers are an explicit `newId` argument standing for `uuid.uuid4()`. -/

structure DbEvent where
  id : String
  title : Option String := none
  agenda : Option String := none
  date : Option CalDate := none
  time : Option TimeOfDay := none
  importance : Option String := none
  location : Option String := none
  coordinator : Option String := none
  recurrence : Option String := none
  created_at : Nat := 0
  updated_at : Nat := 0
deriving Repr, DecidableEq

structure DbParticipant where
  name : String
  event_id : String
deriving Repr, DecidableEq

structure DbStore where
  events : List DbEvent := []
  participants : List DbParticipant := []
deriving Repr, DecidableEq

/-- The NOT NULL column constraints of the `events` table, checked when a
row is written (`title`, `date`, `time`, `coordinator`, `importance`,
`recurrence` are declared `nullable=False`). -/
def notNullOk (e : DbEvent) : Bool :=
  e.title.isSome && e.date.isSome && e.time.isSome &&
  e.coordinator.isSome && e.importance.isSome && e.recurrence.isSome

/-- The date handling of `Event.from_dict`: `if data.get('date'):` (falsy
when the key is absent, `None` or the empty string) guards the
`strptime`, whose failure raises. -/
def fromDictDate (v : Option (Option String)) : Except String (Option CalDate) :=
  match v.join with
  | none => .ok none
  | some s =>
    if s = "" then .ok none
    else match strptimeDate s with
      | .ok d => .ok (some d)
      | .error e => .error e

def fromDictTime (v : Option (Option String)) : Except String (Option TimeOfDay) :=
  match v.join with
  | none => .ok none
  | some s =>
    if s = "" then .ok none
    else match strptimeTime s with
      | .ok t => .ok (some t)
      | .error e => .error e

/-- `Event.from_dict(data)` (`models.py`): `data.get(k)` for the plain
fields, `data.get('importance', 'medium')` / `data.get('recurrence',
'none')` for the enums (the default applies only when the key is absent),
and the guarded `strptime` conversions.  `id` and the timestamps are
filled by column defaults at flush time, modelled by the `newId` / `now`
arguments. -/
def Event.from_dict (data : Payload) (newId : String) (now : Nat) :
    Except String DbEvent :=
  match fromDictDate data.date with
  | .error e => .error e
  | .ok d =>
  match fromDictTime data.time with
  | .error e => .error e
  | .ok t =>
  .ok { id := newId,
        title := data.title.join,
        agenda := data.agenda.join,
        date := d,
        time := t,
        importance := match data.importance with
          | some v => v
          | none => some "medium",
        location := data.location.join,
        coordinator := data.coordinator.join,
        recurrence := match data.recurrence with
          | some v => v
          | none => some "none",
        created_at := now,
        updated_at := now }

/-- The date handling of `Event.update_from_dict`: a key present with a
string goes through `strptime` (no emptiness guard here, so `''` raises);
a key present with a non-string value matches neither `isinstance` branch
and leaves the field as it was. -/
def updateDictDate (old : Option CalDate) (v : Option (Option String)) :
    Except String (Option CalDate) :=
  match v with
  | some (some s) =>
    match strptimeDate s with
    | .ok d => .ok (some d)
    | .error e => .error e
  | some none => .ok old
  | none => .ok old

def updateDictTime (old : Option TimeOfDay) (v : Option (Option String)) :
    Except String (Option TimeOfDay) :=
  match v with
  | some (some s) =>
    match strptimeTime s with
    | .ok t => .ok (some t)
    | .error e => .error e
  | some none => .ok old
  | none => .ok old

/-- `if k in data: self.k = data[k]` for a scalar column. -/
def mergeScalar (old : Option String) (v : Option (Option String)) : Option String :=
  match v with
  | some nv => nv
  | none => old

/-- `Event.update_from_dict(data)` (`models.py`): each of the eight scalar
fields is overwritten exactly when its key is present in the dict; `id`
and `created_at` are not touched; `updated_at` is set to
`datetime.utcnow()`. -/
def Event.update_from_dict (e : DbEvent) (data : Payload) (now : Nat) :
    Except String DbEvent :=
  match updateDictDate e.date data.date with
  | .error er => .error er
  | .ok d =>
  match updateDictTime e.time data.time with
  | .error er => .error er
  | .ok t =>
  .ok { id := e.id,
        title := mergeScalar e.title data.title,
        agenda := mergeScalar e.agenda data.agenda,
        date := d,
        time := t,
        importance := mergeScalar e.importance data.importance,
        location := mergeScalar e.location data.location,
        coordinator := mergeScalar e.coordinator data.coordinator,
        recurrence := mergeScalar e.recurrence data.recurrence,
        created_at := e.created_at,
        updated_at := now }

/-- The participant names of one event, in table order (`to_dict` reads
the relationship, which returns the rows in insertion order). -/
def participantNamesOf (st : DbStore) (eid : String) : List String :=
  (st.participants.filter (fun p => p.event_id = eid)).map DbParticipant.name

/-- `Event.to_dict()` (`models.py`). -/
def Event.to_dict (st : DbStore) (e : DbEvent) : EventView :=
  { id := some e.id,
    title := e.title,
    agenda := e.agenda,
    date := e.date.map formatDate,
    time := e.time.map formatTime,
    importance := e.importance,
    location := e.location,
    coordinator := e.coordinator,
    recurrence := e.recurrence,
    participants := participantNamesOf st e.id,
    created_at := some (tsRender e.created_at),
    updated_at := some (tsRender e.updated_at) }

namespace DatabaseEventService

/-- `EventService.add_event` (`database_service.py`): build the row with
`Event.from_dict`, flush (primary-key uniqueness), insert the non-empty
participant names (`if participant_name:` skips falsy ones), commit (NOT
NULL constraints).  Any exception rolls back and is re-raised wrapped as
`Failed to add event: ...`. -/
def add_event (data : Payload) (newId : String) (now : Nat) (st : DbStore) :
    Except String (String × DbStore) :=
  let r : Except String (String × DbStore) :=
    match Event.from_dict data newId now with
    | .error e => .error e
    | .ok ev =>
      if st.events.any (fun e => e.id = newId) then
        .error ("UNIQUE constraint failed: events.id")
      else if !notNullOk ev then
        .error ("NOT NULL constraint failed: events")
      else
        let parts :=
          match data.participants with
          | some l =>
            if l.isEmpty then []
            else (l.filter (fun n => n ≠ "")).map
              (fun n => DbParticipant.mk n newId)
          | none => []
        .ok (newId, ⟨st.events ++ [ev], st.participants ++ parts⟩)
  match r with
  | .ok v => .ok v
  | .error e => .error ("Failed to add event: " ++ e)

/-- `EventService.get_event`: a read-only lookup via `Event.query.get`. -/
def get_event (eid : String) (st : DbStore) : Option EventView :=
  (st.events.find? (fun e => e.id = eid)).map (Event.to_dict st)

/-- `EventService.get_all_events`. -/
def get_all_events (st : DbStore) : List EventView :=
  st.events.map (Event.to_dict st)

/-- `EventService.update_event` (`database_service.py`):
`event_data.get('id')` must be truthy and name a stored event, else the
call returns `False` without touching anything; otherwise the row is
merged with `update_from_dict`, and when the `participants` key is
present the event's participant rows are deleted wholesale and the
payload's non-empty names inserted.  Exceptions roll back and re-raise as
`Failed to update event: ...`. -/
def update_event (data : Payload) (now : Nat) (st : DbStore) :
    Except String (Bool × DbStore) :=
  match data.id.join with
  | none => .ok (false, st)
  | some eid =>
    if eid = "" then .ok (false, st)
    else
      match st.events.find? (fun e => e.id = eid) with
      | none => .ok (false, st)
      | some e =>
        match Event.update_from_dict e data now with
        | .error msg => .error ("Failed to update event: " ++ msg)
        | .ok merged =>
          if !notNullOk merged then
            .error ("Failed to update event: NOT NULL constraint failed: events")
          else
            let parts :=
              match data.participants with
              | some l =>
                st.participants.filter (fun p => p.event_id ≠ eid) ++
                  (l.filter (fun n => n ≠ "")).map
                    (fun n => DbParticipant.mk n eid)
              | none => st.participants
            .ok (true,
              ⟨st.events.map (fun x => if x.id = eid then merged else x), parts⟩)

/-- `EventService.delete_event`: absent identifier returns `False`;
otherwise the event row and every participant row referencing it are
removed in one commit. -/
def delete_event (eid : String) (st : DbStore) : Bool × DbStore :=
  match st.events.find? (fun e => e.id = eid) with
  | none => (false, st)
  | some _ =>
    (true, ⟨st.events.filter (fun e => e.id ≠ eid),
            st.participants.filter (fun p => p.event_id ≠ eid)⟩)

end DatabaseEventService

/-! ## Volatile in-memory backend (`event_store.py`)

`EVENT_STORE` is a dict from identifier to the stored event dict; Python
dicts preserve insertion order, so the module-level mapping becomes an
association list. -/

abbrev MemStore := List (String × Payload)

namespace EventStore

/-- `EVENT_STORE[k] = v`: replace an existing binding, else append. -/
def storePut (st : MemStore) (k : String) (v : Payload) : MemStore :=
  if (List.lookup k st).isSome then
    st.map (fun kv => if kv.1 = k then (k, v) else kv)
  else st ++ [(k, v)]

/-- `EventStore.add_event`: copy the payload dict, write the generated
identifier into it under `'id'`, store it. -/
def add_event (data : Payload) (newId : String) (st : MemStore) :
    String × MemStore :=
  (newId, storePut st newId { data with id := some (some newId) })

/-- `dict.update(event_data)`: every key present in the payload
overwrites, every absent key keeps the stored value.  No field receives
any other treatment — in particular `updated_at` is not refreshed. -/
def dictUpdate (old new : Payload) : Payload :=
  { id := new.id.orElse (fun _ => old.id),
    title := new.title.orElse (fun _ => old.title),
    agenda := new.agenda.orElse (fun _ => old.agenda),
    date := new.date.orElse (fun _ => old.date),
    time := new.time.orElse (fun _ => old.time),
    importance := new.importance.orElse (fun _ => old.importance),
    location := new.location.orElse (fun _ => old.location),
    coordinator := new.coordinator.orElse (fun _ => old.coordinator),
    recurrence := new.recurrence.orElse (fun _ => old.recurrence),
    participants := new.participants.orElse (fun _ => old.participants),
    created_at := new.created_at.orElse (fun _ => old.created_at),
    updated_at := new.updated_at.orElse (fun _ => old.updated_at) }

/-- `EventStore.update_event`: `event_data.get('id')` must be a key of
the store (`None` never is); on a hit the stored dict is merged in place
with `dict.update` and the call returns `True`, else `False`. -/
def update_event (data : Payload) (st : MemStore) : Bool × MemStore :=
  match data.id.join with
  | none => (false, st)
  | some eid =>
    if (List.lookup eid st).isSome then
      (true, st.map (fun kv => if kv.1 = eid then (eid, dictUpdate kv.2 data) else kv))
    else (false, st)

/-- `EventStore.delete_event`. -/
def delete_event (eid : String) (st : MemStore) : Bool × MemStore :=
  if (List.lookup eid st).isSome then
    (true, st.filter (fun kv => kv.1 ≠ eid))
  else (false, st)

end EventStore

/-! ## SOAP service layer and dispatcher (`event_service.py`) -/

def validImportanceValues : List String := ["low", "medium", "high"]

def validRecurrenceValues : List String :=
  ["none", "daily", "weekly", "monthly", "annually"]

/-- Rendering of a dict value inside an f-string: `None` prints as the
text `None`. -/
def pyStrOpt : Option String → String
  | some s => s
  | none => "None"

/-- `validate_importance(value)`: raises unless the value is one of the
three literals; a key present with `None` raises as well, since `None`
is not in the list. -/
def validate_importance (v : Option String) : Except String (Option String) :=
  match v with
  | some s =>
    if s ∈ validImportanceValues then .ok (some s)
    else .error ("Invalid importance value: " ++ s)
  | none => .error ("Invalid importance value: " ++ pyStrOpt none)

/-- `validate_recurrence(value)`. -/
def validate_recurrence (v : Option String) : Except String (Option String) :=
  match v with
  | some s =>
    if s ∈ validRecurrenceValues then .ok (some s)
    else .error ("Invalid recurrence value: " ++ s)
  | none => .error ("Invalid recurrence value: " ++ pyStrOpt none)

def checkImportance (data : Payload) : Except String Unit :=
  match data.importance with
  | some v =>
    match validate_importance v with
    | .error e => .error e
    | .ok _ => .ok ()
  | none => .ok ()

def checkRecurrence (data : Payload) : Except String Unit :=
  match data.recurrence with
  | some v =>
    match validate_recurrence v with
    | .error e => .error e
    | .ok _ => .ok ()
  | none => .ok ()

/-- The validation prologue shared by the SOAP-layer add and update:
`if 'importance' in event_data: ... ; if 'recurrence' in event_data: ...`.
The validated values are written back unchanged. -/
def checkEnums (data : Payload) : Except String Unit :=
  match checkImportance data with
  | .error e => .error e
  | .ok _ => checkRecurrence data

namespace EventService

/-- SOAP-layer `EventService.add_event`: validate the enum fields, then
call the database service; any exception is re-raised as
`Failed to add event: ...` (so a store-layer message is wrapped twice). -/
def add_event (data : Payload) (newId : String) (now : Nat) (st : DbStore) :
    Except String (String × DbStore) :=
  let r : Except String (String × DbStore) :=
    match checkEnums data with
    | .error e => .error e
    | .ok _ => DatabaseEventService.add_event data newId now st
  match r with
  | .ok v => .ok v
  | .error e => .error ("Failed to add event: " ++ e)

def get_event (eid : String) (st : DbStore) : Option EventView :=
  DatabaseEventService.get_event eid st

def get_all_events (st : DbStore) : List EventView :=
  DatabaseEventService.get_all_events st

/-- SOAP-layer `EventService.update_event`. -/
def update_event (data : Payload) (now : Nat) (st : DbStore) :
    Except String (Bool × DbStore) :=
  let r : Except String (Bool × DbStore) :=
    match checkEnums data with
    | .error e => .error e
    | .ok _ => DatabaseEventService.update_event data now st
  match r with
  | .ok v => .ok v
  | .error e => .error ("Failed to update event: " ++ e)

def delete_event (eid : String) (st : DbStore) : Bool × DbStore :=
  DatabaseEventService.delete_event eid st

end EventService

/-- The dispatch part of `soap_endpoint`, after a successful parse.  Each
branch encodes the service outcome with `create_soap_response`; a raised
exception is caught by the surrounding `try` and encoded as a fault with
HTTP status 500, leaving the store untouched (state is only replaced by a
successful service call).  `GetEvent`/`DeleteEvent` receive the parsed
identifier; when no `eventId` element was present the lookup finds
nothing (`query.get` of a missing key). -/
def soapDispatch (pr : ParsedReq) (newId : String) (now : Nat) (st : DbStore) :
    XElem × Nat × DbStore :=
  match pr.operation with
  | some "AddEvent" =>
    match EventService.add_event (pr.event_data.getD {}) newId now st with
    | .ok (eid, st') =>
      (create_soap_response "AddEvent" (SoapData.str eid) false none, 200, st')
    | .error e =>
      (create_soap_response "Error" SoapData.noData false (some e), 500, st)
  | some "GetEvent" =>
    (match EventService.get_event (pr.event_id.getD "") st with
     | some ev => (create_soap_response "GetEvent" (SoapData.ev ev) false none, 200, st)
     | none =>
       (create_soap_response "GetEvent" SoapData.noData false
         (some "Event not found"), 200, st))
  | some "GetAllEvents" =>
    (create_soap_response "GetAllEvents"
      (SoapData.evs (EventService.get_all_events st)) false none, 200, st)
  | some "UpdateEvent" =>
    match EventService.update_event (pr.event_data.getD {}) now st with
    | .ok (b, st') =>
      (create_soap_response "UpdateEvent" SoapData.noData b none, 200, st')
    | .error e =>
      (create_soap_response "Error" SoapData.noData false (some e), 500, st)
  | some "DeleteEvent" =>
    let r := EventService.delete_event (pr.event_id.getD "") st
    (create_soap_response "DeleteEvent" SoapData.noData r.1 none, 200, r.2)
  | _ =>
    (create_soap_response "Unknown" SoapData.noData false
      (some "Unknown operation"), 200, st)

/-- `soap_endpoint` on an already-parsed request tree: decode, dispatch,
encode; a decode failure becomes a fault response with status 500. -/
def soap_endpoint (req : XElem) (newId : String) (now : Nat) (st : DbStore) :
    XElem × Nat × DbStore :=
  match parse_soap_request req with
  | .error e =>
    (create_soap_response "Error" SoapData.noData false (some e), 500, st)
  | .ok pr => soapDispatch pr newId now st

/-! ## JSON/HTTP endpoints (`event_service.py`) -/

/-- The parts of a Flask JSON response the claims inspect: the HTTP
status code, the `error` message if any, and the returned identifier. -/
structure ApiResult where
  code : Nat
  err : Option String := none
  event_id : Option String := none
deriving Repr, DecidableEq

/-- `api_create_event` (`POST /api/events`): missing/empty JSON → 400,
missing required field → 400, store exception → 500, success → 201.  The
JSON layer never calls `validate_importance` / `validate_recurrence` or
parses the date/time itself — the payload goes straight to
`DatabaseEventService.add_event`. -/
def api_create_event (body : Option Payload) (newId : String) (now : Nat)
    (st : DbStore) : ApiResult × DbStore :=
  match body with
  | none => ({ code := 400, err := some "No data provided" }, st)
  | some d =>
    if d.isEmptyDict then ({ code := 400, err := some "No data provided" }, st)
    else if d.title.isNone then
      ({ code := 400, err := some "Missing required field: title" }, st)
    else if d.date.isNone then
      ({ code := 400, err := some "Missing required field: date" }, st)
    else if d.time.isNone then
      ({ code := 400, err := some "Missing required field: time" }, st)
    else if d.coordinator.isNone then
      ({ code := 400, err := some "Missing required field: coordinator" }, st)
    else
      match DatabaseEventService.add_event d newId now st with
      | .ok (eid, st') => ({ code := 201, event_id := some eid }, st')
      | .error e => ({ code := 500, err := some e }, st)

/-- `api_update_event` (`PUT /api/events/<event_id>`): the path identifier
is written into the body dict (`event_data['id'] = event_id`) before the
store is called; `False` from the store becomes a 404. -/
def api_update_event (event_id : String) (body : Option Payload) (now : Nat)
    (st : DbStore) : ApiResult × DbStore :=
  match body with
  | none => ({ code := 400, err := some "No data provided" }, st)
  | some d =>
    if d.isEmptyDict then ({ code := 400, err := some "No data provided" }, st)
    else
      match DatabaseEventService.update_event
          { d with id := some (some event_id) } now st with
      | .ok (true, st') => ({ code := 200 }, st')
      | .ok (false, st') => ({ code := 404, err := some "Event not found" }, st')
      | .error e => ({ code := 500, err := some e }, st)

/-- `api_delete_event` (`DELETE /api/events/<event_id>`). -/
def api_delete_event (event_id : String) (st : DbStore) : ApiResult × DbStore :=
  let r := DatabaseEventService.delete_event event_id st
  if r.1 then ({ code := 200 }, r.2)
  else ({ code := 404, err := some "Event not found" }, r.2)

/-! ## Reachable store states -/

/-- The store states reachable through the relational backend's mutating
operations, starting from the empty database.  An operation that raises
rolls back, so only `.ok` outcomes produce new states. -/
inductive DbReachable : DbStore → Prop where
  | init : DbReachable {}
  | add (data : Payload) (newId : String) (now : Nat) (st st' : DbStore)
      (eid : String) (h : DbReachable st)
      (hc : DatabaseEventService.add_event data newId now st = .ok (eid, st')) :
      DbReachable st'
  | upd (data : Payload) (now : Nat) (st st' : DbStore) (b : Bool)
      (h : DbReachable st)
      (hc : DatabaseEventService.update_event data now st = .ok (b, st')) :
      DbReachable st'
  | del (eid : String) (st : DbStore) (h : DbReachable st) :
      DbReachable (DatabaseEventService.delete_event eid st).2

/-- The store invariant of the data model: event identifiers are unique
and every participant row references a live event. -/
def StoreWF (st : DbStore) : Prop :=
  (st.events.map DbEvent.id).Nodup ∧
  ∀ p ∈ st.participants, ∃ e ∈ st.events, e.id = p.event_id

/-! ## Concrete request documents used in the theorems -/

def mkGetEventReq (eid : String) : XElem :=
  XElem.mk (soapNS ++ "Envelope") none (.ofList
    [XElem.mk (soapNS ++ "Body") none (.ofList
      [XElem.mk (wsdlNS ++ "GetEvent") none (.ofList
        [XElem.mk (schNS ++ "eventId") (some eid) .nil])])])

/-- An UpdateEvent request whose event payload carries only the `id`
field. -/
def mkUpdateEventIdReq (eid : String) : XElem :=
  XElem.mk (soapNS ++ "Envelope") none (.ofList
    [XElem.mk (soapNS ++ "Body") none (.ofList
      [XElem.mk (wsdlNS ++ "UpdateEvent") none (.ofList
        [XElem.mk (schNS ++ "event") none (.ofList
          [XElem.mk (schNS ++ "id") (some eid) .nil])])])])

def mkDeleteEventReq (eid : String) : XElem :=
  XElem.mk (soapNS ++ "Envelope") none (.ofList
    [XElem.mk (soapNS ++ "Body") none (.ofList
      [XElem.mk (wsdlNS ++ "DeleteEvent") none (.ofList
        [XElem.mk (schNS ++ "eventId") (some eid) .nil])])])

theorem parse_mkGetEventReq (eid : String) :
    parse_soap_request (mkGetEventReq eid) =
      .ok { operation := some "GetEvent", event_id := some eid } := rfl

theorem parse_mkUpdateEventIdReq (eid : String) :
    parse_soap_request (mkUpdateEventIdReq eid) =
      .ok { operation := some "UpdateEvent",
            event_data := some { id := some (some eid) } } := rfl

theorem parse_mkDeleteEventReq (eid : String) :
    parse_soap_request (mkDeleteEventReq eid) =
      .ok { operation := some "DeleteEvent", event_id := some eid } := rfl

/-- An absent identifier makes the relational update a boolean `false`
with the store untouched. -/
theorem db_update_absent (eid : String) (now : Nat) (st : DbStore)
    (hfind : st.events.find? (fun e => e.id = eid) = none) :
    DatabaseEventService.update_event { id := some (some eid) } now st =
      .ok (false, st) := by
  unfold DatabaseEventService.update_event
  by_cases h : eid = "" <;> simp [Option.join, h, hfind]

theorem svc_update_absent (eid : String) (now : Nat) (st : DbStore)
    (hfind : st.events.find? (fun e => e.id = eid) = none) :
    EventService.update_event { id := some (some eid) } now st =
      .ok (false, st) := by
  unfold EventService.update_event
  have hce : checkEnums { id := some (some eid) } = .ok () := rfl
  simp only [hce, db_update_absent eid now st hfind]

/-- C1.  For an identifier absent from the store, a GetEvent envelope
request produces a fault response whose faultstring is `Event not found`,
while UpdateEvent and DeleteEvent envelope requests for the same
identifier produce ordinary operation responses (no fault) whose return
value is the text `false`. -/
theorem c1_notfound_asymmetry (eid newId : String) (now : Nat) (st : DbStore)
    (habs : ∀ e ∈ st.events, e.id ≠ eid) :
    faultStringOf (soap_endpoint (mkGetEventReq eid) newId now st).1 =
        some "Event not found" ∧
    isFaultResp (soap_endpoint (mkUpdateEventIdReq eid) newId now st).1 = false ∧
    returnTextOf (soap_endpoint (mkUpdateEventIdReq eid) newId now st).1 =
        some "false" ∧
    isFaultResp (soap_endpoint (mkDeleteEventReq eid) newId now st).1 = false ∧
    returnTextOf (soap_endpoint (mkDeleteEventReq eid) newId now st).1 =
        some "false" := by
  have hfind : st.events.find? (fun e => e.id = eid) = none :=
    List.find?_eq_none.mpr (by intro e he; simpa using habs e he)
  have hG : soap_endpoint (mkGetEventReq eid) newId now st =
      (create_soap_response "GetEvent" SoapData.noData false
        (some "Event not found"), 200, st) := by
    simp only [soap_endpoint, parse_mkGetEventReq]
    simp only [soapDispatch, EventService.get_event,
      DatabaseEventService.get_event, Option.getD, hfind]
    rfl
  have hU : soap_endpoint (mkUpdateEventIdReq eid) newId now st =
      (create_soap_response "UpdateEvent" SoapData.noData false none, 200, st) := by
    simp only [soap_endpoint, parse_mkUpdateEventIdReq]
    simp only [soapDispatch, Option.getD, svc_update_absent eid now st hfind]
  have hD : soap_endpoint (mkDeleteEventReq eid) newId now st =
      (create_soap_response "DeleteEvent" SoapData.noData false none, 200, st) := by
    simp only [soap_endpoint, parse_mkDeleteEventReq]
    simp only [soapDispatch, EventService.delete_event,
      DatabaseEventService.delete_event, Option.getD, hfind]
  exact ⟨by rw [hG]; rfl, by rw [hU]; rfl, by rw [hU]; rfl,
         by rw [hD]; rfl, by rw [hD]; rfl⟩

/-! ## The body-scanning discipline of the decoder (C5) -/

/-- The operation name a single body child is recognized as, mirroring
the suffix tests of the `for child in body` loop. -/
def recognizedOp (tag : String) : Option String :=
  if strEndsWith tag "AddEvent" then some "AddEvent"
  else if strEndsWith tag "GetEvent" then some "GetEvent"
  else if strEndsWith tag "GetAllEvents" then some "GetAllEvents"
  else if strEndsWith tag "UpdateEvent" then some "UpdateEvent"
  else if strEndsWith tag "DeleteEvent" then some "DeleteEvent"
  else none

/-- The operation of the LAST recognized child of a body, `none` when no
child is recognized: later children take priority. -/
def lastRecognizedOp : List XElem → Option String
  | [] => none
  | c :: rest =>
    match lastRecognizedOp rest with
    | some o => some o
    | none => recognizedOp c.tag

theorem soapReqStep_operation (acc : ParsedReq) (c : XElem) :
    (soapReqStep acc c).operation =
      match recognizedOp c.tag with
      | some o => some o
      | none => acc.operation := by
  unfold soapReqStep recognizedOp
  split_ifs <;> rfl

theorem foldl_soapReqStep_operation : ∀ (f : XForest) (acc : ParsedReq),
    (XForest.foldl soapReqStep acc f).operation =
      match lastRecognizedOp f.toList with
      | some o => some o
      | none => acc.operation
  | .nil, _ => rfl
  | .cons c rest, acc => by
    have ih := foldl_soapReqStep_operation rest (soapReqStep acc c)
    show (XForest.foldl soapReqStep (soapReqStep acc c) rest).operation =
      match lastRecognizedOp (XForest.cons c rest).toList with
      | some o => some o
      | none => acc.operation
    rw [ih, soapReqStep_operation]
    have hl : lastRecognizedOp (XForest.cons c rest).toList =
        match lastRecognizedOp rest.toList with
        | some o => some o
        | none => recognizedOp c.tag := rfl
    rw [hl]
    cases lastRecognizedOp rest.toList <;> cases recognizedOp c.tag <;> rfl

/-- A request whose body holds an AddEvent child followed by a
DeleteEvent child: the decoder reports DeleteEvent, not AddEvent. -/
def c5Body : XElem :=
  XElem.mk (soapNS ++ "Body") none (.ofList
    [XElem.mk (wsdlNS ++ "AddEvent") none (.ofList
      [XElem.mk (schNS ++ "event") none (.ofList
        [XElem.mk (schNS ++ "title") (some "A") .nil])]),
     XElem.mk (wsdlNS ++ "DeleteEvent") none (.ofList
       [XElem.mk (schNS ++ "eventId") (some "x") .nil])])

def c5Req : XElem :=
  XElem.mk (soapNS ++ "Envelope") none (.ofList [c5Body])

/-- C5 counterexample: with two recognized operation children the decoder
reports the SECOND (last) one, so the first recognized child does not
determine the operation, contrary to the claim. -/
theorem c5_first_child_counterexample :
    (parse_soap_request c5Req).map ParsedReq.operation = .ok (some "DeleteEvent") ∧
    (some "DeleteEvent" : Option String) ≠ some "AddEvent" :=
  ⟨rfl, by decide⟩

/-- C5 (amended).  The decoder scans every child of the body: children
with unrecognized tags are skipped without error, a recognized child
overwrites the operation, so the LAST recognized operation-named child
determines the operation; when no child is recognized the decode reports
no operation and the dispatcher answers with an `Unknown operation`
fault (and leaves the store untouched). -/
theorem c5_decode_scan (root body : XElem)
    (hb : findDesc root (soapNS ++ "Body") = some body) :
    (∃ pr, parse_soap_request root = .ok pr ∧
       pr.operation = lastRecognizedOp body.children.toList) ∧
    (∀ pr newId now st, parse_soap_request root = .ok pr →
       pr.operation = none →
       soapDispatch pr newId now st =
         (create_soap_response "Unknown" SoapData.noData false
           (some "Unknown operation"), 200, st)) := by
  constructor
  · refine ⟨XForest.foldl soapReqStep {} body.children, ?_, ?_⟩
    · unfold parse_soap_request
      rw [hb]
    · rw [foldl_soapReqStep_operation]
      cases lastRecognizedOp body.children.toList <;> rfl
  · intro pr newId now st _ hop
    simp only [soapDispatch, hop]

theorem c5_decode_scan_witness :
    (findDesc c5Req (soapNS ++ "Body") = some c5Body) ∧
    ((∃ pr, parse_soap_request c5Req = .ok pr ∧
        pr.operation = lastRecognizedOp c5Body.children.toList) ∧
     (∀ pr newId now st, parse_soap_request c5Req = .ok pr →
        pr.operation = none →
        soapDispatch pr newId now st =
          (create_soap_response "Unknown" SoapData.noData false
            (some "Unknown operation"), 200, st))) :=
  ⟨rfl, c5_decode_scan c5Req c5Body rfl⟩

/-! ## State characterization of the relational store operations -/

/-- What a successful relational Add did to the store: the row built by
`from_dict` is appended, and the payload's non-empty participant names
are inserted for the fresh identifier, in order. -/
theorem add_event_ok_state (data : Payload) (newId : String) (now : Nat)
    (st st' : DbStore) (rid : String)
    (h : DatabaseEventService.add_event data newId now st = .ok (rid, st')) :
    rid = newId ∧
    ∃ ev, Event.from_dict data newId now = .ok ev ∧
      st.events.any (fun e => e.id = newId) = false ∧
      notNullOk ev = true ∧
      st'.events = st.events ++ [ev] ∧
      st'.participants = st.participants ++
        (match data.participants with
         | some l => (l.filter (fun n => n ≠ "")).map
             (fun n => DbParticipant.mk n newId)
         | none => []) := by
  unfold DatabaseEventService.add_event at h
  cases hfd : Event.from_dict data newId now with
  | error e => rw [hfd] at h; simp at h
  | ok ev =>
    rw [hfd] at h
    try dsimp only at h
    by_cases hdup : st.events.any (fun e => e.id = newId)
    · rw [if_pos hdup] at h; simp at h
    · rw [if_neg hdup] at h
      by_cases hnn : notNullOk ev
      · rw [if_neg (by simp [hnn])] at h
        try dsimp only at h
        simp only [Except.ok.injEq, Prod.mk.injEq] at h
        obtain ⟨hr, hst⟩ := h
        refine ⟨hr.symm, ev, rfl, by simp [hdup], by simp [hnn], ?_, ?_⟩
        · rw [← hst]
        · rw [← hst]
          cases hps : data.participants with
          | none => rfl
          | some l => cases l <;> simp
      · rw [if_pos (by simp [hnn])] at h; simp at h

/-- A relational Update that returned `true` merged exactly the found
row with `update_from_dict` and, when the payload carries the
`participants` key, wholesale-replaced that event's participant rows with
the payload's non-empty names. -/
theorem update_event_ok_state (data : Payload) (now : Nat) (st st' : DbStore)
    (h : DatabaseEventService.update_event data now st = .ok (true, st')) :
    ∃ eid e merged, data.id.join = some eid ∧ eid ≠ "" ∧
      st.events.find? (fun x => x.id = eid) = some e ∧
      Event.update_from_dict e data now = .ok merged ∧
      notNullOk merged = true ∧
      st'.events = st.events.map (fun x => if x.id = eid then merged else x) ∧
      st'.participants = (match data.participants with
        | some l => st.participants.filter (fun p => p.event_id ≠ eid) ++
            (l.filter (fun n => n ≠ "")).map (fun n => DbParticipant.mk n eid)
        | none => st.participants) := by
  unfold DatabaseEventService.update_event at h
  cases hid : data.id.join with
  | none => rw [hid] at h; simp at h
  | some eid =>
    rw [hid] at h
    try dsimp only at h
    by_cases he : eid = ""
    · rw [if_pos he] at h; simp at h
    · rw [if_neg he] at h
      cases hfind : st.events.find? (fun x => x.id = eid) with
      | none => rw [hfind] at h; simp at h
      | some e =>
        rw [hfind] at h
        try dsimp only at h
        cases hmerge : Event.update_from_dict e data now with
        | error msg => rw [hmerge] at h; simp at h
        | ok merged =>
          rw [hmerge] at h
          try dsimp only at h
          by_cases hnn : notNullOk merged
          · rw [if_neg (by simp [hnn])] at h
            try dsimp only at h
            simp only [Except.ok.injEq, Prod.mk.injEq, true_and] at h
            exact ⟨eid, e, merged, rfl, he, hfind, hmerge, by simp [hnn],
              by rw [← h], by rw [← h]⟩
          · rw [if_pos (by simp [hnn])] at h; simp at h

/-- A relational Update that returned `false` touched nothing. -/
theorem update_event_false_state (data : Payload) (now : Nat) (st st' : DbStore)
    (h : DatabaseEventService.update_event data now st = .ok (false, st')) :
    st' = st := by
  unfold DatabaseEventService.update_event at h
  cases hid : data.id.join with
  | none => rw [hid] at h; simp at h; exact h.symm
  | some eid =>
    rw [hid] at h
    try dsimp only at h
    by_cases he : eid = ""
    · rw [if_pos he] at h; simp at h; exact h.symm
    · rw [if_neg he] at h
      cases hfind : st.events.find? (fun x => x.id = eid) with
      | none => rw [hfind] at h; simp at h; exact h.symm
      | some e =>
        rw [hfind] at h
        try dsimp only at h
        cases hmerge : Event.update_from_dict e data now with
        | error msg => rw [hmerge] at h; simp at h
        | ok merged =>
          rw [hmerge] at h
          try dsimp only at h
          by_cases hnn : notNullOk merged
          · rw [if_neg (by simp [hnn])] at h; simp at h
          · rw [if_pos (by simp [hnn])] at h; simp at h

/-- What Delete did to the store, in both outcomes. -/
theorem delete_event_state (eid : String) (st : DbStore) :
    (st.events.find? (fun e => e.id = eid) = none ∧
       DatabaseEventService.delete_event eid st = (false, st)) ∨
    ((∃ e, st.events.find? (fun e => e.id = eid) = some e) ∧
       DatabaseEventService.delete_event eid st =
         (true, ⟨st.events.filter (fun e => e.id ≠ eid),
                 st.participants.filter (fun p => p.event_id ≠ eid)⟩)) := by
  unfold DatabaseEventService.delete_event
  cases hfind : st.events.find? (fun e => e.id = eid) with
  | none => exact Or.inl ⟨rfl, rfl⟩
  | some e => exact Or.inr ⟨⟨e, rfl⟩, rfl⟩

/-! ## Participant-name filtering at the boundaries (C9) -/

/-- An operation child whose event payload carries only a participants
list with the given participant texts. -/
def mkParticipantsOnlyElem (texts : List (Option String)) : XElem :=
  XElem.mk (wsdlNS ++ "AddEvent") none (.ofList
    [XElem.mk (schNS ++ "event") none (.ofList
      [XElem.mk (schNS ++ "participants") none (.ofList
        (participantElems texts))])])

theorem findForest_participantElems_ne (t : String)
    (h : t ≠ schNS ++ "participant") : ∀ texts : List (Option String),
    findForest (.ofList (participantElems texts)) t = none := by
  intro texts
  induction texts with
  | nil => rfl
  | cons x xs ih =>
    show (if schNS ++ "participant" = t then _ else _) = none
    rw [if_neg (fun hh => h hh.symm)]
    exact ih

theorem findAllForest_participantElems (t : String)
    (ht : t = schNS ++ "participant") : ∀ texts : List (Option String),
    findAllForest (.ofList (participantElems texts)) t =
      participantElems texts := by
  subst ht
  intro texts
  induction texts with
  | nil => rfl
  | cons x xs ih =>
    show (if schNS ++ "participant" = schNS ++ "participant" then _ else _) ++
        [] ++ _ = _
    rw [if_pos rfl]
    show _ :: findAllForest (.ofList (participantElems xs)) _ = _
    rw [ih]
    rfl

/-- What the decoder extracts from a participants element: names with a
missing or empty text are dropped, everything else is kept in order. -/
theorem parse_participantsOnly (texts : List (Option String)) :
    (parse_event_from_xml (mkParticipantsOnlyElem texts)).participants =
      some (texts.filterMap (fun x =>
        match x with
        | some s => if s ≠ "" then some s else none
        | none => none)) := by
  simp [parse_event_from_xml, mkParticipantsOnlyElem, findDesc, XElem.children,
    findForest, findAllDesc, findAllForest, XElem.truthy,
    XForest.isEmpty, XElem.text, schNS, wsdlNS,
    findForest_participantElems_ne, findAllForest_participantElems]
  simp [participantElems, List.filterMap_map, Function.comp, XElem.text]
  rfl

/-- C9 counterexample: the participant texts `' '` (whitespace-only),
`''` (empty), a missing text and `Bob` decode to `[' ', 'Bob']` — the
whitespace-only name is NOT dropped, contrary to the claim that empty and
whitespace-only names are both dropped. -/
theorem c9_whitespace_counterexample :
    (parse_event_from_xml
        (mkParticipantsOnlyElem [some " ", some "", none, some "Bob"])).participants =
      some [" ", "Bob"] ∧
    (some [" ", "Bob"] : Option (List String)) ≠ some ["Bob"] :=
  ⟨rfl, by decide⟩

/-- C9 (amended).  At the envelope decode boundary a participant name is
silently dropped exactly when its text is missing or the empty string —
whitespace-only names are kept — and the kept names appear in their
original order; likewise the store insertion on Add keeps every non-empty
name (whitespace included) in order, and drops `''` silently, with no
error in either case. -/
theorem c9_participant_filtering (texts : List (Option String))
    (names : List String) (d : Payload) (newId : String) (now : Nat)
    (st st' : DbStore)
    (hadd : DatabaseEventService.add_event { d with participants := some names }
      newId now st = .ok (newId, st')) :
    (parse_event_from_xml (mkParticipantsOnlyElem texts)).participants =
      some (texts.filterMap (fun x =>
        match x with
        | some s => if s ≠ "" then some s else none
        | none => none)) ∧
    st'.participants = st.participants ++
      (names.filter (fun n => n ≠ "")).map (fun n => DbParticipant.mk n newId) := by
  refine ⟨parse_participantsOnly texts, ?_⟩
  obtain ⟨-, ev, -, -, -, -, hps⟩ :=
    add_event_ok_state _ newId now st st' newId hadd
  simpa using hps

def c9AddPayload : Payload :=
  { title := some (some "T"), date := some (some "2025-10-05"),
    time := some (some "10:00:00"), coordinator := some (some "C"),
    participants := some [" ", "Bob", ""] }

def c9Event : DbEvent :=
  { id := "n2", title := some "T",
    date := some ⟨2025, 10, 5⟩, time := some ⟨10, 0, 0⟩,
    importance := some "medium", coordinator := some "C",
    recurrence := some "none", created_at := 3, updated_at := 3 }

/-- The store produced by adding `c9AddPayload` to the empty store: the
whitespace-only name is inserted, the empty one is not. -/
def c9Store : DbStore :=
  { events := [c9Event], participants := [⟨" ", "n2"⟩, ⟨"Bob", "n2"⟩] }

theorem c9_participant_filtering_witness :
    (DatabaseEventService.add_event
        { c9AddPayload with participants := some [" ", "Bob", ""] } "n2" 3 {} =
      .ok ("n2", c9Store)) ∧
    ((parse_event_from_xml
        (mkParticipantsOnlyElem [some " ", some "", none, some "Bob"])).participants =
      some (([some " ", some "", none, some "Bob"] : List (Option String)).filterMap
        (fun x =>
          match x with
          | some s => if s ≠ "" then some s else none
          | none => none)) ∧
     c9Store.participants = ({} : DbStore).participants ++
       (([" ", "Bob", ""] : List String).filter (fun n => n ≠ "")).map
         (fun n => DbParticipant.mk n "n2")) :=
  ⟨rfl, c9_participant_filtering [some " ", some "", none, some "Bob"]
    [" ", "Bob", ""] c9AddPayload "n2" 3 {} c9Store rfl⟩

/-- A store holding one event `e1` with one participant, used to
instantiate the hypothesis-bearing theorems. -/
def demoEvent1 : DbEvent :=
  { id := "e1", title := some "Team Meeting",
    date := some ⟨2025, 10, 5⟩, time := some ⟨10, 0, 0⟩,
    importance := some "medium", location := some "Conference Room A",
    coordinator := some "John Smith", recurrence := some "weekly",
    created_at := 1, updated_at := 1 }

def demoStore1 : DbStore :=
  { events := [demoEvent1],
    participants := [⟨"Alice Johnson", "e1"⟩] }

/-! ## The partial-update contract of the two backends (C2) -/

def c2MemPayload : Payload :=
  { id := some (some "e1"), title := some (some "Old"),
    updated_at := some (some "ts:old") }

def c2MemStore : MemStore := [("e1", c2MemPayload)]

def c2MemUpd : Payload :=
  { id := some (some "e1"), title := some (some "New") }

/-- C2 counterexample: the volatile in-memory backend merges only the
payload's keys; after a successful update that does not carry
`updated_at`, the stored `updated_at` is exactly what it was before — it
is not refreshed, contrary to the claim that both backends refresh it. -/
theorem c2_inmemory_updated_at_counterexample :
    (EventStore.update_event c2MemUpd c2MemStore).1 = true ∧
    (List.lookup "e1" (EventStore.update_event c2MemUpd c2MemStore).2).map
        Payload.updated_at = some (some (some "ts:old")) ∧
    (List.lookup "e1" c2MemStore).map Payload.updated_at =
        some (some (some "ts:old")) ∧
    (List.lookup "e1" (EventStore.update_event c2MemUpd c2MemStore).2).map
        Payload.title = some (some (some "New")) :=
  ⟨rfl, rfl, rfl, rfl⟩

/-- C2 (amended).  The field-by-field merge contract holds as claimed for
the relational backend (`update_from_dict`: fields absent from the
payload keep their values, `id` and `created_at` are untouched,
`updated_at` is set to the update's clock tick).  The in-memory backend
merges only the keys present in the payload dict — so absent fields are
likewise preserved — but it does NOT refresh `updated_at`: the stored
`updated_at` (like `id` and `created_at`) changes only if the payload
itself carries that key. -/
theorem c2_partial_update_contract :
    (∀ (e : DbEvent) (d : Payload) (now : Nat) (e' : DbEvent),
      Event.update_from_dict e d now = .ok e' →
      e'.id = e.id ∧ e'.created_at = e.created_at ∧ e'.updated_at = now ∧
      (d.title = none → e'.title = e.title) ∧
      (d.agenda = none → e'.agenda = e.agenda) ∧
      (d.date = none → e'.date = e.date) ∧
      (d.time = none → e'.time = e.time) ∧
      (d.importance = none → e'.importance = e.importance) ∧
      (d.location = none → e'.location = e.location) ∧
      (d.coordinator = none → e'.coordinator = e.coordinator) ∧
      (d.recurrence = none → e'.recurrence = e.recurrence)) ∧
    (∀ (d : Payload) (st st' : MemStore),
      EventStore.update_event d st = (true, st') →
      ∃ eid, d.id.join = some eid ∧
        st' = st.map (fun kv =>
          if kv.1 = eid then (eid, EventStore.dictUpdate kv.2 d) else kv)) ∧
    (∀ (old d : Payload),
      (d.title = none → (EventStore.dictUpdate old d).title = old.title) ∧
      (d.agenda = none → (EventStore.dictUpdate old d).agenda = old.agenda) ∧
      (d.date = none → (EventStore.dictUpdate old d).date = old.date) ∧
      (d.time = none → (EventStore.dictUpdate old d).time = old.time) ∧
      (d.importance = none →
        (EventStore.dictUpdate old d).importance = old.importance) ∧
      (d.location = none → (EventStore.dictUpdate old d).location = old.location) ∧
      (d.coordinator = none →
        (EventStore.dictUpdate old d).coordinator = old.coordinator) ∧
      (d.recurrence = none →
        (EventStore.dictUpdate old d).recurrence = old.recurrence) ∧
      (d.id = none → (EventStore.dictUpdate old d).id = old.id) ∧
      (d.created_at = none →
        (EventStore.dictUpdate old d).created_at = old.created_at) ∧
      (d.updated_at = none →
        (EventStore.dictUpdate old d).updated_at = old.updated_at)) := by
  refine ⟨?_, ?_, ?_⟩
  · intro e d now e' h
    unfold Event.update_from_dict at h
    cases hd : updateDictDate e.date d.date with
    | error er => rw [hd] at h; simp at h
    | ok dd =>
      rw [hd] at h
      cases ht : updateDictTime e.time d.time with
      | error er => rw [ht] at h; simp at h
      | ok tt =>
        rw [ht] at h
        simp only [Except.ok.injEq] at h
        subst h
        refine ⟨rfl, rfl, rfl, ?_, ?_, ?_, ?_, ?_, ?_, ?_, ?_⟩ <;> intro hnone
        · simp [mergeScalar, hnone]
        · simp [mergeScalar, hnone]
        · rw [hnone] at hd; simp [updateDictDate] at hd; simp [hd]
        · rw [hnone] at ht; simp [updateDictTime] at ht; simp [ht]
        · simp [mergeScalar, hnone]
        · simp [mergeScalar, hnone]
        · simp [mergeScalar, hnone]
        · simp [mergeScalar, hnone]
  · intro d st st' h
    unfold EventStore.update_event at h
    cases hid : d.id.join with
    | none => rw [hid] at h; simp at h
    | some eid =>
      rw [hid] at h
      try dsimp only at h
      by_cases hl : (List.lookup eid st).isSome
      · rw [if_pos hl] at h
        simp only [Prod.mk.injEq, true_and] at h
        exact ⟨eid, rfl, h.symm⟩
      · rw [if_neg hl] at h; simp at h
  · intro old d
    refine ⟨?_, ?_, ?_, ?_, ?_, ?_, ?_, ?_, ?_, ?_, ?_⟩ <;> intro hnone <;>
      simp [EventStore.dictUpdate, hnone, Option.orElse]

def c2MergedEvent : DbEvent :=
  { demoEvent1 with title := some "New", updated_at := 9 }

theorem c2_partial_update_contract_witness :
    (Event.update_from_dict demoEvent1 { title := some (some "New") } 9 =
        .ok c2MergedEvent ∧
      c2MergedEvent.created_at = demoEvent1.created_at ∧
      c2MergedEvent.date = demoEvent1.date) ∧
    (EventStore.update_event c2MemUpd c2MemStore =
        (true, [("e1", EventStore.dictUpdate c2MemPayload c2MemUpd)]) ∧
      [("e1", EventStore.dictUpdate c2MemPayload c2MemUpd)] =
        c2MemStore.map (fun kv =>
          if kv.1 = "e1" then ("e1", EventStore.dictUpdate kv.2 c2MemUpd) else kv)) ∧
    (EventStore.dictUpdate c2MemPayload c2MemUpd).updated_at =
        c2MemPayload.updated_at := by
  refine ⟨⟨rfl, ?_, ?_⟩, ⟨rfl, ?_⟩, ?_⟩
  · exact ((c2_partial_update_contract.1 demoEvent1
      { title := some (some "New") } 9 c2MergedEvent rfl).2.1)
  · exact ((c2_partial_update_contract.1 demoEvent1
      { title := some (some "New") } 9 c2MergedEvent rfl).2.2.2.2.2.1 rfl)
  · obtain ⟨eid, hid, hmap⟩ := c2_partial_update_contract.2.1 c2MemUpd c2MemStore
      [("e1", EventStore.dictUpdate c2MemPayload c2MemUpd)] rfl
    have heid : eid = "e1" := by
      have : (some "e1" : Option String) = some eid := hid
      exact (Option.some.injEq _ _).mp this.symm
    rw [heid] at hmap
    exact hmap
  · exact ((c2_partial_update_contract.2.2 c2MemPayload
      c2MemUpd).2.2.2.2.2.2.2.2.2.2 rfl)

theorem c1_notfound_asymmetry_witness :
    (∀ e ∈ demoStore1.events, e.id ≠ "missing") ∧
    (faultStringOf (soap_endpoint (mkGetEventReq "missing") "n1" 7 demoStore1).1 =
        some "Event not found" ∧
     isFaultResp (soap_endpoint (mkUpdateEventIdReq "missing") "n1" 7 demoStore1).1 = false ∧
     returnTextOf (soap_endpoint (mkUpdateEventIdReq "missing") "n1" 7 demoStore1).1 =
        some "false" ∧
     isFaultResp (soap_endpoint (mkDeleteEventReq "missing") "n1" 7 demoStore1).1 = false ∧
     returnTextOf (soap_endpoint (mkDeleteEventReq "missing") "n1" 7 demoStore1).1 =
        some "false") :=
  ⟨by decide, c1_notfound_asymmetry "missing" "n1" 7 demoStore1 (by decide)⟩

/-! ## No format validation on the JSON route (C6) -/

def c6BadBody : Payload :=
  { title := some (some "T"), date := some (some "bad-date"),
    time := some (some "10:00:00"), coordinator := some (some "C") }

def c6BadTimeBody : Payload :=
  { title := some (some "T"), date := some (some "2025-10-05"),
    time := some (some "bad-time"), coordinator := some (some "C") }

def c6TimeOnlyBody : Payload :=
  { time := some (some "99:99:99") }

/-- C6 counterexample: a JSON create whose date string is malformed is
answered with HTTP 500 (the failure is raised inside the store call), not
the claimed 400. -/
theorem c6_json_format_counterexample :
    (api_create_event (some c6BadBody) "n4" 5 {}).1.code = 500 ∧
    (api_create_event (some c6BadBody) "n4" 5 {}).1.code ≠ 400 ∧
    (api_create_event (some c6BadBody) "n4" 5 {}).1.err =
      some ("Failed to add event: " ++ dateFormatErr "bad-date") ∧
    (api_create_event (some c6BadBody) "n4" 5 {}).2 = ({} : DbStore) :=
  ⟨rfl, by decide, rfl, rfl⟩

theorem isEmptyDict_title_some (d : Payload) (ht : d.title.isSome) :
    Payload.isEmptyDict d = false := by
  cases hdt : d.title with
  | none => rw [hdt] at ht; simp at ht
  | some w => simp [Payload.isEmptyDict, hdt]

theorem isEmptyDict_date_some (d : Payload) (hd : d.date.isSome) :
    Payload.isEmptyDict d = false := by
  cases hdt : d.date with
  | none => rw [hdt] at hd; simp at hd
  | some w => simp [Payload.isEmptyDict, hdt]

theorem isEmptyDict_time_some (d : Payload) (hd : d.time.isSome) :
    Payload.isEmptyDict d = false := by
  cases hdt : d.time with
  | none => rw [hdt] at hd; simp at hd
  | some w => simp [Payload.isEmptyDict, hdt]

/-- C6 (amended).  The JSON layer performs no date/time-format and no
enum validation of its own.  (1) A create whose date string `strptime`
rejects is answered HTTP 500 — not 400 — with the raised message in the
error payload, and the committed store is unchanged.  (2) The same for a
create whose date parses but whose time string is rejected.  (3)/(4) The
same two failures on `PUT /api/events/{id}` once the event exists, so
the merge is reached.  (5)/(6) The outcome of a create or update is
determined solely by the store call on the unmodified payload — the JSON
route never consults `validate_importance` / `validate_recurrence`, so
bad enum values are not rejected before the store is invoked. -/
theorem c6_json_no_format_validation :
    (∀ (d : Payload) (s em newId : String) (now : Nat) (st : DbStore),
      d.title.isSome → d.date = some (some s) → s ≠ "" →
      strptimeDate s = .error em → d.time.isSome → d.coordinator.isSome →
      (api_create_event (some d) newId now st).1.code = 500 ∧
      (api_create_event (some d) newId now st).1.err =
        some ("Failed to add event: " ++ em) ∧
      (api_create_event (some d) newId now st).2 = st) ∧
    (∀ (d : Payload) (sd stm em newId : String) (dt : CalDate) (now : Nat)
        (st : DbStore),
      d.title.isSome → d.date = some (some sd) → strptimeDate sd = .ok dt →
      d.time = some (some stm) → stm ≠ "" → strptimeTime stm = .error em →
      d.coordinator.isSome →
      (api_create_event (some d) newId now st).1.code = 500 ∧
      (api_create_event (some d) newId now st).1.err =
        some ("Failed to add event: " ++ em) ∧
      (api_create_event (some d) newId now st).2 = st) ∧
    (∀ (d : Payload) (s em pid : String) (e : DbEvent) (now : Nat) (st : DbStore),
      d.date = some (some s) → strptimeDate s = .error em → pid ≠ "" →
      st.events.find? (fun x => x.id = pid) = some e →
      (api_update_event pid (some d) now st).1.code = 500 ∧
      (api_update_event pid (some d) now st).1.err =
        some ("Failed to update event: " ++ em) ∧
      (api_update_event pid (some d) now st).2 = st) ∧
    (∀ (d : Payload) (stm em pid : String) (e : DbEvent) (now : Nat) (st : DbStore),
      d.date = none → d.time = some (some stm) → strptimeTime stm = .error em →
      pid ≠ "" → st.events.find? (fun x => x.id = pid) = some e →
      (api_update_event pid (some d) now st).1.code = 500 ∧
      (api_update_event pid (some d) now st).1.err =
        some ("Failed to update event: " ++ em) ∧
      (api_update_event pid (some d) now st).2 = st) ∧
    (∀ (d : Payload) (newId : String) (now : Nat) (st : DbStore),
      d.title.isSome → d.date.isSome → d.time.isSome → d.coordinator.isSome →
      (∀ (eid : String) (st2 : DbStore),
        DatabaseEventService.add_event d newId now st = .ok (eid, st2) →
        api_create_event (some d) newId now st =
          ({ code := 201, event_id := some eid }, st2)) ∧
      (∀ em : String,
        DatabaseEventService.add_event d newId now st = .error em →
        api_create_event (some d) newId now st =
          ({ code := 500, err := some em }, st))) ∧
    (∀ (d : Payload) (pid : String) (now : Nat) (st : DbStore),
      Payload.isEmptyDict d = false →
      (∀ st2 : DbStore,
        DatabaseEventService.update_event { d with id := some (some pid) } now st =
          .ok (true, st2) →
        api_update_event pid (some d) now st = ({ code := 200 }, st2)) ∧
      (∀ st2 : DbStore,
        DatabaseEventService.update_event { d with id := some (some pid) } now st =
          .ok (false, st2) →
        api_update_event pid (some d) now st =
          ({ code := 404, err := some "Event not found" }, st2)) ∧
      (∀ em : String,
        DatabaseEventService.update_event { d with id := some (some pid) } now st =
          .error em →
        api_update_event pid (some d) now st =
          ({ code := 500, err := some em }, st))) := by
  refine ⟨?_, ?_, ?_, ?_, ?_, ?_⟩
  · intro d s em newId now st ht hda hs hp hti hco
    have hfdd : fromDictDate d.date = .error em := by
      unfold fromDictDate
      rw [hda]
      have hj : (some (some s) : Option (Option String)).join = some s := rfl
      rw [hj]
      dsimp only
      rw [if_neg hs, hp]
    have hfd : Event.from_dict d newId now = .error em := by
      unfold Event.from_dict
      rw [hfdd]
    have hadd : DatabaseEventService.add_event d newId now st =
        .error ("Failed to add event: " ++ em) := by
      unfold DatabaseEventService.add_event
      rw [hfd]
    simp only [api_create_event, isEmptyDict_title_some d ht]
    have h1 : d.title.isNone = false := by
      cases hx : d.title <;> simp_all
    have h2 : d.date.isNone = false := by rw [hda]; rfl
    have h3 : d.time.isNone = false := by
      cases hx : d.time <;> simp_all
    have h4 : d.coordinator.isNone = false := by
      cases hx : d.coordinator <;> simp_all
    simp only [h1, h2, h3, h4, Bool.false_eq_true, if_false, hadd]
    exact ⟨by simp, by simp, by simp⟩
  · intro d sd stm em newId dt now st ht hda hpd hta hts hpt hco
    have hsd : sd ≠ "" := by
      intro hemp
      rw [hemp] at hpd
      rw [show strptimeDate "" = Except.error (dateFormatErr "") from rfl] at hpd
      simp at hpd
    have hfdd : fromDictDate d.date = .ok (some dt) := by
      unfold fromDictDate
      rw [hda]
      have hj : (some (some sd) : Option (Option String)).join = some sd := rfl
      rw [hj]
      dsimp only
      rw [if_neg hsd, hpd]
    have hfdt : fromDictTime d.time = .error em := by
      unfold fromDictTime
      rw [hta]
      have hj : (some (some stm) : Option (Option String)).join = some stm := rfl
      rw [hj]
      dsimp only
      rw [if_neg hts, hpt]
    have hfd : Event.from_dict d newId now = .error em := by
      unfold Event.from_dict
      rw [hfdd]
      dsimp only
      rw [hfdt]
    have hadd : DatabaseEventService.add_event d newId now st =
        .error ("Failed to add event: " ++ em) := by
      unfold DatabaseEventService.add_event
      rw [hfd]
    simp only [api_create_event, isEmptyDict_title_some d ht]
    have h1 : d.title.isNone = false := by
      cases hx : d.title <;> simp_all
    have h2 : d.date.isNone = false := by rw [hda]; rfl
    have h3 : d.time.isNone = false := by rw [hta]; rfl
    have h4 : d.coordinator.isNone = false := by
      cases hx : d.coordinator <;> simp_all
    simp only [h1, h2, h3, h4, Bool.false_eq_true, if_false, hadd]
    exact ⟨by simp, by simp, by simp⟩
  · intro d s em pid e now st hda hp hpid hfind
    have hmerr : ∀ ev : DbEvent,
        Event.update_from_dict ev { d with id := some (some pid) } now =
          .error em := by
      intro ev
      have hd2 : ({ d with id := some (some pid) } : Payload).date =
          some (some s) := hda
      unfold Event.update_from_dict updateDictDate
      rw [hd2]
      dsimp only
      rw [hp]
    have hupd : DatabaseEventService.update_event
        { d with id := some (some pid) } now st =
        .error ("Failed to update event: " ++ em) := by
      have hid2 : ({ d with id := some (some pid) } : Payload).id.join =
          some pid := rfl
      unfold DatabaseEventService.update_event
      rw [hid2]
      dsimp only
      rw [if_neg hpid, hfind]
      dsimp only
      rw [hmerr e]
    have hne : Payload.isEmptyDict d = false :=
      isEmptyDict_date_some d (by rw [hda]; rfl)
    simp only [api_update_event, hne, hupd]
    exact ⟨by simp, by simp, by simp⟩
  · intro d stm em pid e now st hdn hta hpt hpid hfind
    have hmerr : ∀ ev : DbEvent,
        Event.update_from_dict ev { d with id := some (some pid) } now =
          .error em := by
      intro ev
      have hd2 : ({ d with id := some (some pid) } : Payload).date = none := hdn
      have ht2 : ({ d with id := some (some pid) } : Payload).time =
          some (some stm) := hta
      have hdd : updateDictDate ev.date
          ({ d with id := some (some pid) } : Payload).date = .ok ev.date := by
        rw [hd2]
        rfl
      have htd : updateDictTime ev.time
          ({ d with id := some (some pid) } : Payload).time = .error em := by
        unfold updateDictTime
        rw [ht2]
        dsimp only
        rw [hpt]
      unfold Event.update_from_dict
      rw [hdd]
      dsimp only
      rw [htd]
    have hupd : DatabaseEventService.update_event
        { d with id := some (some pid) } now st =
        .error ("Failed to update event: " ++ em) := by
      have hid2 : ({ d with id := some (some pid) } : Payload).id.join =
          some pid := rfl
      unfold DatabaseEventService.update_event
      rw [hid2]
      dsimp only
      rw [if_neg hpid, hfind]
      dsimp only
      rw [hmerr e]
    have hne : Payload.isEmptyDict d = false :=
      isEmptyDict_time_some d (by rw [hta]; rfl)
    simp only [api_update_event, hne, hupd]
    exact ⟨by simp, by simp, by simp⟩
  · intro d newId now st ht hda hti hco
    have hne : Payload.isEmptyDict d = false := isEmptyDict_title_some d ht
    have h1 : d.title.isNone = false := by cases hx : d.title <;> simp_all
    have h2 : d.date.isNone = false := by cases hx : d.date <;> simp_all
    have h3 : d.time.isNone = false := by cases hx : d.time <;> simp_all
    have h4 : d.coordinator.isNone = false := by
      cases hx : d.coordinator <;> simp_all
    have hn0 : ¬(Payload.isEmptyDict d = true) := by simp [hne]
    have hn1 : ¬(d.title.isNone = true) := by simp [h1]
    have hn2 : ¬(d.date.isNone = true) := by simp [h2]
    have hn3 : ¬(d.time.isNone = true) := by simp [h3]
    have hn4 : ¬(d.coordinator.isNone = true) := by simp [h4]
    constructor
    · intro eid st2 hadd
      unfold api_create_event
      dsimp only
      rw [if_neg hn0, if_neg hn1, if_neg hn2, if_neg hn3, if_neg hn4, hadd]
    · intro em hadd
      unfold api_create_event
      dsimp only
      rw [if_neg hn0, if_neg hn1, if_neg hn2, if_neg hn3, if_neg hn4, hadd]
  · intro d pid now st hne
    have hn0 : ¬(Payload.isEmptyDict d = true) := by simp [hne]
    refine ⟨?_, ?_, ?_⟩
    · intro st2 hupd
      unfold api_update_event
      dsimp only
      rw [if_neg hn0, hupd]
    · intro st2 hupd
      unfold api_update_event
      dsimp only
      rw [if_neg hn0, hupd]
    · intro em hupd
      unfold api_update_event
      dsimp only
      rw [if_neg hn0, hupd]

theorem c6_json_no_format_validation_witness :
    ((api_create_event (some c6BadBody) "n4" 5 demoStore1).1.code = 500 ∧
     (api_create_event (some c6BadBody) "n4" 5 demoStore1).1.err =
       some ("Failed to add event: " ++ dateFormatErr "bad-date") ∧
     (api_create_event (some c6BadBody) "n4" 5 demoStore1).2 = demoStore1) ∧
    ((api_create_event (some c6BadTimeBody) "n4" 5 demoStore1).1.code = 500 ∧
     (api_create_event (some c6BadTimeBody) "n4" 5 demoStore1).1.err =
       some ("Failed to add event: " ++ timeFormatErr "bad-time") ∧
     (api_create_event (some c6BadTimeBody) "n4" 5 demoStore1).2 = demoStore1) ∧
    ((api_update_event "e1" (some c6BadBody) 5 demoStore1).1.code = 500 ∧
     (api_update_event "e1" (some c6BadBody) 5 demoStore1).1.err =
       some ("Failed to update event: " ++ dateFormatErr "bad-date") ∧
     (api_update_event "e1" (some c6BadBody) 5 demoStore1).2 = demoStore1) ∧
    ((api_update_event "e1" (some c6TimeOnlyBody) 5 demoStore1).1.code = 500 ∧
     (api_update_event "e1" (some c6TimeOnlyBody) 5 demoStore1).1.err =
       some ("Failed to update event: " ++ timeFormatErr "99:99:99") ∧
     (api_update_event "e1" (some c6TimeOnlyBody) 5 demoStore1).2 = demoStore1) ∧
    (api_create_event (some c9AddPayload) "n2" 3 ({} : DbStore) =
      ({ code := 201, event_id := some "n2" }, c9Store)) ∧
    (api_update_event "e1" (some c6TimeOnlyBody) 5 demoStore1 =
      ({ code := 500,
         err := some ("Failed to update event: " ++ timeFormatErr "99:99:99") },
       demoStore1)) := by
  have h := c6_json_no_format_validation
  refine ⟨?_, ?_, ?_, ?_, ?_, ?_⟩
  · exact h.1 c6BadBody "bad-date" (dateFormatErr "bad-date") "n4" 5 demoStore1
      rfl rfl (by decide) rfl rfl rfl
  · exact h.2.1 c6BadTimeBody "2025-10-05" "bad-time" (timeFormatErr "bad-time")
      "n4" ⟨2025, 10, 5⟩ 5 demoStore1 rfl rfl rfl rfl (by decide) rfl rfl
  · exact h.2.2.1 c6BadBody "bad-date" (dateFormatErr "bad-date") "e1" demoEvent1
      5 demoStore1 rfl rfl (by decide) rfl
  · exact h.2.2.2.1 c6TimeOnlyBody "99:99:99" (timeFormatErr "99:99:99") "e1"
      demoEvent1 5 demoStore1 rfl rfl rfl (by decide) rfl
  · exact (h.2.2.2.2.1 c9AddPayload "n2" 3 ({} : DbStore) rfl rfl rfl rfl).1
      "n2" c9Store rfl
  · exact (h.2.2.2.2.2 c6TimeOnlyBody "e1" 5 demoStore1 rfl).2.2
      ("Failed to update event: " ++ timeFormatErr "99:99:99") rfl

/-! ## The JSON update targets the path identifier (C10) -/

theorem update_from_dict_id (e : DbEvent) (d : Payload) (now : Nat)
    (e' : DbEvent) (h : Event.update_from_dict e d now = .ok e') :
    e'.id = e.id := by
  unfold Event.update_from_dict at h
  cases hd : updateDictDate e.date d.date with
  | error er => rw [hd] at h; simp at h
  | ok dd =>
    rw [hd] at h
    cases ht : updateDictTime e.time d.time with
    | error er => rw [ht] at h; simp at h
    | ok tt =>
      rw [ht] at h
      simp only [Except.ok.injEq] at h
      subst h
      rfl

theorem filter_ne_map_replace (pid : String) (merged : DbEvent)
    (hm : merged.id = pid) : ∀ evs : List DbEvent,
    (evs.map (fun x => if x.id = pid then merged else x)).filter
        (fun e => e.id ≠ pid) =
      evs.filter (fun e => e.id ≠ pid) := by
  intro evs
  induction evs with
  | nil => rfl
  | cons x xs ih =>
    simp only [List.map_cons, List.filter_cons]
    by_cases hx : x.id = pid
    · rw [if_pos hx]
      have h1 : (decide (merged.id ≠ pid)) = false := by simp [hm]
      have h2 : (decide (x.id ≠ pid)) = false := by simp [hx]
      rw [h1, h2]
      simpa using ih
    · rw [if_neg hx]
      have h2 : (decide (x.id ≠ pid)) = true := by simp [hx]
      rw [h2]
      simpa using congrArg (List.cons x) ih

theorem filter_ne_idem (pid : String) : ∀ ps : List DbParticipant,
    ((ps.filter (fun p => p.event_id ≠ pid)).filter
      (fun p => p.event_id ≠ pid)) =
      ps.filter (fun p => p.event_id ≠ pid) := by
  intro ps
  induction ps with
  | nil => rfl
  | cons p rest ih =>
    by_cases hp : p.event_id = pid
    · simp [hp, ih]
    · simp [hp, ih]

theorem filter_ne_map_mk (pid : String) : ∀ names : List String,
    ((names.map (fun n => DbParticipant.mk n pid)).filter
      (fun p => p.event_id ≠ pid)) = [] := by
  intro names
  induction names with
  | nil => rfl
  | cons n rest ih => simp [ih]

theorem isEmptyDict_id_some (d : Payload) (v : Option (Option String))
    (hv : v.isSome) : Payload.isEmptyDict { d with id := v } = false := by
  cases v with
  | none => simp at hv
  | some w => simp [Payload.isEmptyDict]

/-- C10.  `PUT /api/events/{id}` overwrites any `id` inside the JSON body
with the path identifier before the store is called: the response and the
resulting store are the same whatever `id` the body carried, and every
event (and participant row) whose identifier differs from the path
identifier is untouched by the call. -/
theorem c10_put_targets_path_id :
    (∀ (pid : String) (d : Payload) (v1 v2 : Option (Option String))
       (now : Nat) (st : DbStore), v1.isSome → v2.isSome →
      api_update_event pid (some { d with id := v1 }) now st =
        api_update_event pid (some { d with id := v2 }) now st) ∧
    (∀ (pid : String) (body : Option Payload) (now : Nat) (st : DbStore),
      (api_update_event pid body now st).2.events.filter
          (fun e => e.id ≠ pid) =
        st.events.filter (fun e => e.id ≠ pid) ∧
      (api_update_event pid body now st).2.participants.filter
          (fun p => p.event_id ≠ pid) =
        st.participants.filter (fun p => p.event_id ≠ pid)) := by
  constructor
  · intro pid d v1 v2 now st h1 h2
    simp only [api_update_event, isEmptyDict_id_some d v1 h1,
      isEmptyDict_id_some d v2 h2]
  · intro pid body now st
    cases body with
    | none => exact ⟨rfl, rfl⟩
    | some d =>
      simp only [api_update_event]
      by_cases hemp : d.isEmptyDict
      · simp only [hemp]
        exact ⟨rfl, rfl⟩
      · simp only [hemp]
        cases hr : DatabaseEventService.update_event
            { d with id := some (some pid) } now st with
        | error e => exact ⟨rfl, rfl⟩
        | ok bv =>
          obtain ⟨b, st'⟩ := bv
          cases b with
          | false =>
            have hst : st' = st :=
              update_event_false_state _ now st st' hr
            subst hst
            exact ⟨rfl, rfl⟩
          | true =>
            obtain ⟨eid, e, merged, hid, hne, hfind, hmerge, hnn, hev, hps⟩ :=
              update_event_ok_state _ now st st' hr
            have heid : eid = pid := by
              simpa using hid.symm
            subst heid
            have hmid : merged.id = eid := by
              have h1 := update_from_dict_id e _ now merged hmerge
              have h2 : e.id = eid := by
                have := List.find?_some hfind
                simpa using this
              rw [h1, h2]
            constructor
            · show st'.events.filter _ = _
              rw [hev, filter_ne_map_replace eid merged hmid]
            · show st'.participants.filter _ = _
              rw [hps]
              cases hl : d.participants with
              | none => rfl
              | some l =>
                rw [List.filter_append, filter_ne_idem, filter_ne_map_mk,
                  List.append_nil]

def c10Body1 : Payload := { title := some (some "X"), id := some (some "OTHER") }
def c10Body2 : Payload := { title := some (some "X"), id := some none }

theorem c10_put_targets_path_id_witness :
    ((some (some "OTHER") : Option (Option String)).isSome ∧
     (some none : Option (Option String)).isSome) ∧
    (api_update_event "e1"
        (some { c10Body1 with id := some (some "OTHER") }) 9 demoStore1 =
      api_update_event "e1"
        (some { c10Body1 with id := some none }) 9 demoStore1) ∧
    ((api_update_event "e1" (some c10Body2) 9 demoStore1).2.events.filter
        (fun e => e.id ≠ "e1") =
      demoStore1.events.filter (fun e => e.id ≠ "e1") ∧
     (api_update_event "e1" (some c10Body2) 9 demoStore1).2.participants.filter
        (fun p => p.event_id ≠ "e1") =
      demoStore1.participants.filter (fun p => p.event_id ≠ "e1")) :=
  ⟨⟨rfl, rfl⟩,
   c10_put_targets_path_id.1 "e1" c10Body1 (some (some "OTHER")) (some none)
     9 demoStore1 rfl rfl,
   c10_put_targets_path_id.2 "e1" (some c10Body2) 9 demoStore1⟩

/-! ## The validation gate of the envelope dispatcher (C4) -/

/-- A dict value failing a `value not in [...]` test: any string outside
the enumeration, and also a `None` value (Python `None` is not in the
list either). -/
def invalidOptVal (allowed : List String) : Option String → Prop
  | some s => s ∉ allowed
  | none => True

instance instDecInvalidOptVal (allowed : List String) :
    (v : Option String) → Decidable (invalidOptVal allowed v)
  | some s => (inferInstance : Decidable (s ∉ allowed))
  | none => .isTrue trivial

theorem append_ne_empty_left (a b : String) (ha : a.data ≠ []) :
    a ++ b ≠ "" := by
  intro h
  have hd := congrArg String.data h
  simp [String.data_append] at hd
  exact ha hd.1

theorem checkImportance_error (d : Payload) (v : Option String)
    (hv : d.importance = some v) (hinv : invalidOptVal validImportanceValues v) :
    ∃ m, checkImportance d = .error m ∧ m ≠ "" := by
  unfold checkImportance
  rw [hv]
  cases v with
  | none =>
    exact ⟨_, rfl, by decide⟩
  | some s =>
    refine ⟨"Invalid importance value: " ++ s, ?_, append_ne_empty_left _ _ (by decide)⟩
    unfold validate_importance
    dsimp only
    rw [if_neg hinv]

theorem checkRecurrence_error (d : Payload) (v : Option String)
    (hv : d.recurrence = some v) (hinv : invalidOptVal validRecurrenceValues v) :
    ∃ m, checkRecurrence d = .error m ∧ m ≠ "" := by
  unfold checkRecurrence
  rw [hv]
  cases v with
  | none =>
    exact ⟨_, rfl, by decide⟩
  | some s =>
    refine ⟨"Invalid recurrence value: " ++ s, ?_, append_ne_empty_left _ _ (by decide)⟩
    unfold validate_recurrence
    dsimp only
    rw [if_neg hinv]

/-- A payload with an enum value outside its enumeration never passes the
shared validation prologue. -/
theorem checkEnums_error (d : Payload)
    (hbad : (∃ v, d.importance = some v ∧ invalidOptVal validImportanceValues v) ∨
            (∃ v, d.recurrence = some v ∧ invalidOptVal validRecurrenceValues v)) :
    ∃ m, checkEnums d = .error m ∧ m ≠ "" := by
  rcases hbad with ⟨v, hv, hinv⟩ | ⟨v, hv, hinv⟩
  · obtain ⟨m, hm, hne⟩ := checkImportance_error d v hv hinv
    exact ⟨m, by unfold checkEnums; rw [hm], hne⟩
  · cases hci : checkImportance d with
    | error m =>
      refine ⟨m, by unfold checkEnums; rw [hci], ?_⟩
      unfold checkImportance at hci
      cases hvv : d.importance with
      | none => rw [hvv] at hci; simp at hci
      | some w =>
        rw [hvv] at hci
        cases w with
        | none => simp [validate_importance] at hci; simp [← hci]; decide
        | some s =>
          by_cases hs : s ∈ validImportanceValues
          · simp [validate_importance, hs] at hci
          · simp [validate_importance, hs] at hci
            rw [← hci]
            exact append_ne_empty_left _ _ (by decide)
    | ok u =>
      obtain ⟨m, hm, hne⟩ := checkRecurrence_error d v hv hinv
      exact ⟨m, by unfold checkEnums; rw [hci, hm], hne⟩

theorem errTruthy_of_ne (m : String) (hm : m ≠ "") :
    errTruthy (some m) = true := by
  simp [errTruthy, hm]

theorem isFaultResp_soapError (op m : String) (hm : m ≠ "") :
    isFaultResp (create_soap_response op SoapData.noData false (some m)) = true := by
  unfold create_soap_response
  rw [if_pos (errTruthy_of_ne m hm)]
  simp [isFaultResp, findDesc, findForest, XElem.children, XForest.ofList, soapNS]

/-- C4.  An envelope AddEvent or UpdateEvent whose event payload carries
an `importance` value outside `low/medium/high` or a `recurrence` value
outside its enumeration fails in the dispatcher's validation prologue:
the service call raises (never reaching the store), and the endpoint
answers a fault with HTTP 500 while the store state is exactly the
pre-call state. -/
theorem c4_validation_gate (d : Payload) (newId : String) (now : Nat)
    (st : DbStore)
    (hbad : (∃ v, d.importance = some v ∧ invalidOptVal validImportanceValues v) ∨
            (∃ v, d.recurrence = some v ∧ invalidOptVal validRecurrenceValues v)) :
    (∃ m, EventService.add_event d newId now st = .error m) ∧
    (∃ m, EventService.update_event d now st = .error m) ∧
    (∀ pr : ParsedReq, pr.operation = some "AddEvent" → pr.event_data = some d →
      isFaultResp (soapDispatch pr newId now st).1 = true ∧
      (soapDispatch pr newId now st).2.1 = 500 ∧
      (soapDispatch pr newId now st).2.2 = st) ∧
    (∀ pr : ParsedReq, pr.operation = some "UpdateEvent" → pr.event_data = some d →
      isFaultResp (soapDispatch pr newId now st).1 = true ∧
      (soapDispatch pr newId now st).2.1 = 500 ∧
      (soapDispatch pr newId now st).2.2 = st) := by
  obtain ⟨m, hce, hm⟩ := checkEnums_error d hbad
  have hadd : EventService.add_event d newId now st =
      .error ("Failed to add event: " ++ m) := by
    unfold EventService.add_event
    rw [hce]
  have hupd : EventService.update_event d now st =
      .error ("Failed to update event: " ++ m) := by
    unfold EventService.update_event
    rw [hce]
  refine ⟨⟨_, hadd⟩, ⟨_, hupd⟩, ?_, ?_⟩
  · intro pr hop hdata
    simp only [soapDispatch, hop, hdata, Option.getD_some, hadd]
    exact ⟨isFaultResp_soapError _ _
      (append_ne_empty_left _ _ (by decide)), by simp, by simp⟩
  · intro pr hop hdata
    simp only [soapDispatch, hop, hdata, Option.getD_some, hupd]
    exact ⟨isFaultResp_soapError _ _
      (append_ne_empty_left _ _ (by decide)), by simp, by simp⟩

def c4BadPayload : Payload := { importance := some (some "urgent") }

theorem c4_validation_gate_witness :
    ((∃ v, c4BadPayload.importance = some v ∧
        invalidOptVal validImportanceValues v) ∨
     (∃ v, c4BadPayload.recurrence = some v ∧
        invalidOptVal validRecurrenceValues v)) ∧
    ((∃ m, EventService.add_event c4BadPayload "n3" 4 demoStore1 = .error m) ∧
     (∃ m, EventService.update_event c4BadPayload 4 demoStore1 = .error m) ∧
     (∀ pr : ParsedReq, pr.operation = some "AddEvent" →
        pr.event_data = some c4BadPayload →
        isFaultResp (soapDispatch pr "n3" 4 demoStore1).1 = true ∧
        (soapDispatch pr "n3" 4 demoStore1).2.1 = 500 ∧
        (soapDispatch pr "n3" 4 demoStore1).2.2 = demoStore1) ∧
     (∀ pr : ParsedReq, pr.operation = some "UpdateEvent" →
        pr.event_data = some c4BadPayload →
        isFaultResp (soapDispatch pr "n3" 4 demoStore1).1 = true ∧
        (soapDispatch pr "n3" 4 demoStore1).2.1 = 500 ∧
        (soapDispatch pr "n3" 4 demoStore1).2.2 = demoStore1)) :=
  ⟨Or.inl ⟨some "urgent", rfl, by decide⟩,
   c4_validation_gate c4BadPayload "n3" 4 demoStore1
     (Or.inl ⟨some "urgent", rfl, by decide⟩)⟩

/-! ## Wholesale participant replacement on update (C3) -/

theorem filter_ne_then_eq (eid : String) : ∀ ps : List DbParticipant,
    (ps.filter (fun p => p.event_id ≠ eid)).filter
      (fun p => p.event_id = eid) = [] := by
  intro ps
  induction ps with
  | nil => rfl
  | cons p rest ih =>
    by_cases hp : p.event_id = eid
    · simp [hp, ih]
    · simp [hp, ih]

theorem map_name_mk (eid : String) : ∀ l : List String,
    (l.map (fun n => DbParticipant.mk n eid)).map DbParticipant.name = l := by
  intro l
  induction l with
  | nil => rfl
  | cons x xs ih => simp [ih]

theorem filter_eq_map_mk (eid : String) : ∀ names : List String,
    ((names.map (fun n => DbParticipant.mk n eid)).filter
      (fun p => p.event_id = eid)) =
      names.map (fun n => DbParticipant.mk n eid) := by
  intro names
  induction names with
  | nil => rfl
  | cons n rest ih => simp [ih]

/-- C3 (amended).  When an Update succeeds and the payload carries the
`participants` key, the stored participant list of the updated event is
replaced wholesale: afterwards it consists exactly of the payload's
NON-EMPTY names, in order (names equal to `''` are silently dropped, as
the claim's own sources for C9 record); when the key is absent the
participant table is untouched. -/
theorem c3_participants_wholesale (data : Payload) (now : Nat)
    (st st' : DbStore) (eid : String) (hid : data.id.join = some eid)
    (h : DatabaseEventService.update_event data now st = .ok (true, st')) :
    (∀ l, data.participants = some l →
      participantNamesOf st' eid = l.filter (fun n => n ≠ "")) ∧
    (data.participants = none → st'.participants = st.participants) := by
  obtain ⟨eid', e, merged, hid', hne, hfind, hmerge, hnn, hev, hps⟩ :=
    update_event_ok_state data now st st' h
  have heq : eid' = eid := by
    rw [hid] at hid'
    exact ((Option.some.injEq _ _).mp hid').symm
  subst heq
  constructor
  · intro l hl
    rw [hl] at hps
    unfold participantNamesOf
    rw [hps]
    rw [List.filter_append, filter_ne_then_eq, filter_eq_map_mk]
    simp only [List.nil_append]
    exact map_name_mk _ _
  · intro hl
    rw [hl] at hps
    exact hps

def c3Payload : Payload :=
  { id := some (some "e1"), participants := some ["", "Bob"] }

def c3MergedEvent : DbEvent := { demoEvent1 with updated_at := 9 }

def c3Store' : DbStore :=
  { events := [c3MergedEvent], participants := [⟨"Bob", "e1"⟩] }

/-- C3 counterexample: updating with participants `['', 'Bob']` succeeds
but stores only `['Bob']` — the payload's names are NOT all inserted, the
empty one is dropped. -/
theorem c3_empty_name_counterexample :
    DatabaseEventService.update_event c3Payload 9 demoStore1 =
        .ok (true, c3Store') ∧
    participantNamesOf c3Store' "e1" = ["Bob"] ∧
    participantNamesOf c3Store' "e1" ≠ ["", "Bob"] :=
  ⟨rfl, rfl, by decide⟩

/-- A store whose single event has three participants (scenario C). -/
def demoStore3 : DbStore :=
  { events := [demoEvent1],
    participants := [⟨"A", "e1"⟩, ⟨"B", "e1"⟩, ⟨"C", "e1"⟩] }

def c3EmptyUpd : Payload :=
  { id := some (some "e1"), participants := some [] }

def c3Store3 : DbStore := { events := [c3MergedEvent], participants := [] }

theorem c3_participants_wholesale_witness :
    (c3EmptyUpd.id.join = some "e1") ∧
    (DatabaseEventService.update_event c3EmptyUpd 9 demoStore3 =
      .ok (true, c3Store3)) ∧
    ((∀ l, c3EmptyUpd.participants = some l →
        participantNamesOf c3Store3 "e1" = l.filter (fun n => n ≠ "")) ∧
     (c3EmptyUpd.participants = none →
        c3Store3.participants = demoStore3.participants)) ∧
    participantNamesOf c3Store3 "e1" =
      ([] : List String).filter (fun n => n ≠ "") :=
  ⟨rfl, rfl, c3_participants_wholesale c3EmptyUpd 9 demoStore3 c3Store3 "e1" rfl rfl,
   (c3_participants_wholesale c3EmptyUpd 9 demoStore3 c3Store3 "e1" rfl rfl).1 [] rfl⟩


theorem findForest_ofList_append (t : String) : ∀ l1 l2 : List XElem,
    findForest (XForest.ofList (l1 ++ l2)) t =
      match findForest (XForest.ofList l1) t with
      | some r => some r
      | none => findForest (XForest.ofList l2) t := by
  intro l1 l2
  induction l1 with
  | nil => rfl
  | cons x rest ih =>
    cases x with
    | mk tg tx cs =>
      show findForest (.cons (XElem.mk tg tx cs) (XForest.ofList (rest ++ l2))) t = _
      by_cases htg : tg = t
      · simp only [findForest, if_pos htg]
      · simp only [findForest, if_neg htg]
        cases hcs : findForest cs t with
        | some r => rfl
        | none => exact ih

theorem findForest_scalarChild_self (name : String) (v : Option String)
    (t : String) (ht : t = schNS ++ name) :
    findForest (XForest.ofList (scalarChild name v)) t =
      v.map (fun s => XElem.mk (schNS ++ name) (some s) .nil) := by
  subst ht
  cases v with
  | none => rfl
  | some s =>
    show (if schNS ++ name = schNS ++ name then _ else _) = _
    rw [if_pos rfl]
    rfl

theorem findForest_scalarChild_ne (name : String) (v : Option String)
    (t : String) (ht : ¬(schNS ++ name = t)) :
    findForest (XForest.ofList (scalarChild name v)) t = none := by
  cases v with
  | none => rfl
  | some s =>
    show (if schNS ++ name = t then _ else _) = _
    rw [if_neg ht]
    rfl

theorem findForest_participantsChild_self (ps : List String) (t : String)
    (ht : t = schNS ++ "participants") :
    findForest (XForest.ofList (participantsChild ps)) t =
      if ps.isEmpty then none
      else some (XElem.mk (schNS ++ "participants") none (XForest.ofList
        (participantElems (ps.map some)))) := by
  subst ht
  unfold participantsChild
  by_cases hps : ps.isEmpty
  · simp only [if_pos hps]
    rfl
  · rw [if_neg hps, if_neg hps]
    show (if schNS ++ "participants" = schNS ++ "participants" then _ else _) = _
    rw [if_pos rfl]

theorem findForest_participantsChild_ne (ps : List String) (t : String)
    (h1 : ¬(schNS ++ "participants" = t)) (h2 : t ≠ schNS ++ "participant") :
    findForest (XForest.ofList (participantsChild ps)) t = none := by
  unfold participantsChild
  by_cases hps : ps.isEmpty
  · rw [if_pos hps]
    rfl
  · rw [if_neg hps]
    show (if schNS ++ "participants" = t then _ else _) = _
    rw [if_neg h1]
    rw [findForest_participantElems_ne t h2]
    rfl

theorem parseParts_of_map_some : ∀ ps : List String, (∀ p ∈ ps, p ≠ "") →
    (participantElems (ps.map some)).filterMap (fun p =>
      match p.text with
      | some s => if s = "" then none else some s
      | none => none) = ps := by
  intro ps h
  induction ps with
  | nil => rfl
  | cons p rest ih =>
    have hp : p ≠ "" := h p (by simp)
    have ihr := ih (fun q hq => h q (by simp [hq]))
    show List.filterMap _ (XElem.mk (schNS ++ "participant") (some p) .nil ::
      participantElems (rest.map some)) = p :: rest
    rw [List.filterMap_cons]
    dsimp only [XElem.text]
    rw [if_neg hp]
    dsimp only
    exact congrArg (List.cons p) ihr

def decodeOfEncode (ev : EventView) : Payload :=
  parse_event_from_xml (XElem.mk (wsdlNS ++ "AddEvent") none
    (XForest.ofList [create_event_xml ev]))

/-- C7.  Encode/decode round trip: for every event record whose
participant names are non-empty, encoding it as an event XML element and
decoding that payload yields exactly the record with every populated wire
field intact; fields valued `None` produce no element at all
(`scalarChild name none = []`) and are simply absent after decode, and
the (never encoded) timestamps decode to absent as well. -/
theorem c7_encode_decode_roundtrip (ev : EventView)
    (hps : ∀ p ∈ ev.participants, p ≠ "") :
    (∀ name : String, scalarChild name none = []) ∧
    decodeOfEncode ev =
      { id := ev.id.map some, title := ev.title.map some,
        agenda := ev.agenda.map some, date := ev.date.map some,
        time := ev.time.map some, importance := ev.importance.map some,
        location := ev.location.map some,
        coordinator := ev.coordinator.map some,
        recurrence := ev.recurrence.map some,
        participants := if ev.participants.isEmpty then none
          else some ev.participants } := by
  refine ⟨fun name => rfl, ?_⟩
  unfold decodeOfEncode parse_event_from_xml create_event_xml
  simp [findDesc, XElem.children, findForest, XElem.truthy, XForest.isEmpty,
    encFields, findForest_ofList_append, findForest_scalarChild_self,
    findForest_scalarChild_ne, findForest_participantsChild_self,
    findForest_participantsChild_ne, schNS, wsdlNS]
  refine ⟨?_, ?_, ?_, ?_, ?_, ?_, ?_, ?_, ?_, ?_⟩
  · cases ev.id <;> rfl
  · cases ev.title <;> rfl
  · cases ev.agenda <;> rfl
  · cases ev.date <;> rfl
  · cases ev.time <;> rfl
  · cases ev.importance <;> rfl
  · cases ev.location <;> rfl
  · cases ev.coordinator <;> rfl
  · cases ev.recurrence <;> rfl
  · cases hp : ev.participants with
    | nil => rfl
    | cons p rest =>
      rw [if_neg (by simp), if_neg (by simp)]
      dsimp only [findAllDesc, XElem.children]
      rw [findAllForest_participantElems _ (by simp [schNS])]
      rw [hp] at hps
      rw [parseParts_of_map_some (p :: rest) hps]

def c7DemoView : EventView :=
  { id := some "e1", title := some "Team Meeting", agenda := none,
    date := some "2025-10-05", time := some "10:00:00",
    importance := some "medium", location := none,
    coordinator := some "John Smith", recurrence := some "weekly",
    participants := ["Alice", "Bob"],
    created_at := some "ts:1", updated_at := some "ts:1" }

theorem c7_encode_decode_roundtrip_witness :
    (∀ p ∈ c7DemoView.participants, p ≠ "") ∧
    ((∀ name : String, scalarChild name none = []) ∧
     decodeOfEncode c7DemoView =
      { id := c7DemoView.id.map some, title := c7DemoView.title.map some,
        agenda := c7DemoView.agenda.map some,
        date := c7DemoView.date.map some, time := c7DemoView.time.map some,
        importance := c7DemoView.importance.map some,
        location := c7DemoView.location.map some,
        coordinator := c7DemoView.coordinator.map some,
        recurrence := c7DemoView.recurrence.map some,
        participants := if c7DemoView.participants.isEmpty then none
          else some c7DemoView.participants }) :=
  ⟨by decide, c7_encode_decode_roundtrip c7DemoView (by decide)⟩

theorem from_dict_id (data : Payload) (newId : String) (now : Nat)
    (ev : DbEvent) (h : Event.from_dict data newId now = .ok ev) :
    ev.id = newId := by
  unfold Event.from_dict at h
  cases hd : fromDictDate data.date with
  | error er => rw [hd] at h; simp at h
  | ok dd =>
    rw [hd] at h
    cases ht : fromDictTime data.time with
    | error er => rw [ht] at h; simp at h
    | ok tt =>
      rw [ht] at h
      simp only [Except.ok.injEq] at h
      subst h
      rfl

theorem mapId_replace (eid : String) (merged : DbEvent)
    (hm : merged.id = eid) : ∀ evs : List DbEvent,
    (evs.map (fun x => if x.id = eid then merged else x)).map DbEvent.id =
      evs.map DbEvent.id := by
  intro evs
  induction evs with
  | nil => rfl
  | cons x xs ih =>
    simp only [List.map_cons]
    by_cases hx : x.id = eid
    · rw [if_pos hx, hm, hx, ih]
    · rw [if_neg hx, ih]

/-- Every reachable relational store state is well-formed: event
identifiers are unique and every participant row references an event. -/
theorem dbReachable_wf (st : DbStore) (h : DbReachable st) : StoreWF st := by
  induction h with
  | init => exact ⟨List.nodup_nil, by intro p hp; simp at hp⟩
  | add data newId now st1 st1' eid hrec hc ih =>
    obtain ⟨hnd, href⟩ := ih
    obtain ⟨-, ev, hfd, hdup, -, hev, hps⟩ :=
      add_event_ok_state data newId now st1 st1' eid hc
    have hid : ev.id = newId := from_dict_id data newId now ev hfd
    have hnotin : newId ∉ st1.events.map DbEvent.id := by
      intro hmem
      obtain ⟨e, he, heid⟩ := List.mem_map.mp hmem
      have : st1.events.any (fun x => x.id = newId) = true :=
        List.any_eq_true.mpr ⟨e, he, by simp [heid]⟩
      rw [this] at hdup
      exact absurd hdup (by simp)
    constructor
    · rw [hev]
      simp only [List.map_append, List.map_cons, List.map_nil, hid]
      rw [List.nodup_append]
      exact ⟨hnd, List.nodup_singleton newId,
        by intro a ha hb; simp at hb; subst hb; exact hnotin ha⟩
    · intro p hp
      rw [hps] at hp
      rw [hev]
      rcases List.mem_append.mp hp with hold | hnew
      · obtain ⟨e, he, heid⟩ := href p hold
        exact ⟨e, List.mem_append_left _ he, heid⟩
      · refine ⟨ev, List.mem_append_right _ (by simp), ?_⟩
        cases hpc : data.participants with
        | none => rw [hpc] at hnew; simp at hnew
        | some l =>
          rw [hpc] at hnew
          simp only at hnew
          obtain ⟨n, -, hn⟩ := List.mem_map.mp hnew
          rw [← hn, hid]
  | upd data now st1 st1' b hrec hc ih =>
    cases b with
    | false =>
      have : st1' = st1 := update_event_false_state data now st1 st1' hc
      rw [this]; exact ih
    | true =>
      obtain ⟨hnd, href⟩ := ih
      obtain ⟨eid, e, merged, hid, hne, hfind, hmerge, hnn, hev, hps⟩ :=
        update_event_ok_state data now st1 st1' hc
      have hm : merged.id = eid := by
        have h1 := update_from_dict_id e data now merged hmerge
        have h2 : e.id = eid := by simpa using List.find?_some hfind
        rw [h1, h2]
      have hmem_e : e ∈ st1.events := List.mem_of_find?_eq_some hfind
      have hpreserve : ∀ X, (∃ x ∈ st1.events, x.id = X) →
          ∃ x ∈ st1'.events, x.id = X := by
        rintro X ⟨x, hx, hxid⟩
        rw [hev]
        refine ⟨if x.id = eid then merged else x, List.mem_map_of_mem _ hx, ?_⟩
        by_cases hxe : x.id = eid
        · rw [if_pos hxe, hm, ← hxe, hxid]
        · rw [if_neg hxe, hxid]
      constructor
      · rw [hev, mapId_replace eid merged hm]
        exact hnd
      · intro p hp
        rw [hps] at hp
        cases hpc : data.participants with
        | none =>
          rw [hpc] at hp
          exact hpreserve p.event_id (href p hp)
        | some l =>
          rw [hpc] at hp
          simp only at hp
          rcases List.mem_append.mp hp with hold | hnew
          · exact hpreserve p.event_id (href p (List.mem_of_mem_filter hold))
          · obtain ⟨n, -, hn⟩ := List.mem_map.mp hnew
            refine hpreserve eid ⟨e, hmem_e, by simpa using List.find?_some hfind⟩
              |>.imp ?_
            · intro x hx
              rw [← hn]
              exact hx
  | del eid st1 hrec ih =>
    rcases delete_event_state eid st1 with ⟨hfind, heq⟩ | ⟨hex, heq⟩
    · rw [heq]; exact ih
    · rw [heq]
      obtain ⟨hnd, href⟩ := ih
      constructor
      · exact List.Nodup.sublist
          (List.Sublist.map DbEvent.id (List.filter_sublist _)) hnd
      · intro p hp
        have hp1 := List.mem_of_mem_filter hp
        have hp2 : p.event_id ≠ eid := by
          have := List.of_mem_filter hp
          simpa using this
        obtain ⟨e, he, heid⟩ := href p hp1
        refine ⟨e, List.mem_filter.mpr ⟨he, by simp [heid, hp2]⟩, heid⟩

/-- C8.  In every reachable store state each participant row belongs to
exactly one live event, and Delete removes an event together with all its
participant rows as one unit: on `true` nothing referencing the
identifier survives while everything else does; on `false` the store is
exactly as before. -/
theorem c8_cascade_ownership (st : DbStore) (h : DbReachable st) :
    (∀ p ∈ st.participants, ∃! e, e ∈ st.events ∧ e.id = p.event_id) ∧
    (∀ (eid : String) (b : Bool) (st' : DbStore),
      DatabaseEventService.delete_event eid st = (b, st') →
      (b = true → (∀ e ∈ st'.events, e.id ≠ eid) ∧
        (∀ p ∈ st'.participants, p.event_id ≠ eid) ∧
        (∀ e ∈ st.events, e.id ≠ eid → e ∈ st'.events) ∧
        (∀ p ∈ st.participants, p.event_id ≠ eid → p ∈ st'.participants)) ∧
      (b = false → st' = st)) := by
  obtain ⟨hnd, href⟩ := dbReachable_wf st h
  constructor
  · intro p hp
    obtain ⟨e, he, heid⟩ := href p hp
    refine ⟨e, ⟨he, heid⟩, ?_⟩
    rintro y ⟨hy, hyid⟩
    exact List.inj_on_of_nodup_map hnd hy he (by rw [hyid, heid])
  · intro eid b st' heq
    rcases delete_event_state eid st with ⟨hfind, hdel⟩ | ⟨hex, hdel⟩
    · rw [hdel] at heq
      injection heq with hb hst
      refine ⟨?_, ?_⟩
      · intro hbt
        rw [← hb] at hbt
        exact absurd hbt (by simp)
      · intro _
        exact hst.symm
    · rw [hdel] at heq
      injection heq with hb hst
      refine ⟨?_, ?_⟩
      · intro _
        subst hst
        refine ⟨?_, ?_, ?_, ?_⟩
        · intro e he
          have := List.of_mem_filter he
          simpa using this
        · intro p hp
          have := List.of_mem_filter hp
          simpa using this
        · intro e he hne
          exact List.mem_filter.mpr ⟨he, by simpa using hne⟩
        · intro p hp hne
          exact List.mem_filter.mpr ⟨hp, by simpa using hne⟩
      · intro hbf
        rw [hbf] at hb
        exact absurd hb (by simp)

theorem c8_cascade_ownership_witness :
    DbReachable c9Store ∧
    ((∀ p ∈ c9Store.participants, ∃! e, e ∈ c9Store.events ∧ e.id = p.event_id) ∧
     (∀ (eid : String) (b : Bool) (st' : DbStore),
       DatabaseEventService.delete_event eid c9Store = (b, st') →
       (b = true → (∀ e ∈ st'.events, e.id ≠ eid) ∧
         (∀ p ∈ st'.participants, p.event_id ≠ eid) ∧
         (∀ e ∈ c9Store.events, e.id ≠ eid → e ∈ st'.events) ∧
         (∀ p ∈ c9Store.participants, p.event_id ≠ eid → p ∈ st'.participants)) ∧
       (b = false → st' = c9Store))) :=
  have hr : DbReachable c9Store :=
    DbReachable.add c9AddPayload "n2" 3 {} c9Store "n2" DbReachable.init rfl
  ⟨hr, c8_cascade_ownership c9Store hr⟩

end EventScheduling
